import Mathlib

/-!
Verification of `fetch_weather.py`: a script that fetches weather data from
the open-meteo forecast API, normalizes it into a fixed JSON schema
(`meta` / `current` / `hourly` / `daily`), and writes it to `weather.json`.

Shallow embedding: Python/JSON values are modelled by the mutual inductive
`JVal`; numbers are exact rationals (standing for Python's int/float);
operations that can raise a Python exception return `Except String`;
coercions that swallow exceptions (`_safe_float`, `_safe_int`) return
`Option`.  The one impure input of `build_json` — the wall clock read by
`_now_utc_iso()` — is hoisted into an explicit `now : String` parameter.
-/

namespace FetchWeather

mutual
/-- A JSON-like value: the result of parsing the HTTP response body, and the
shape of the dictionaries the script builds.  Numbers are exact rationals. -/
inductive JVal : Type where
  | null : JVal
  | bool : Bool → JVal
  | num : ℚ → JVal
  | str : String → JVal
  | arr : JArr → JVal
  | obj : JObj → JVal
deriving DecidableEq

inductive JArr : Type where
  | nil : JArr
  | cons : JVal → JArr → JArr
deriving DecidableEq

inductive JObj : Type where
  | nil : JObj
  | cons : String → JVal → JObj → JObj
deriving DecidableEq
end

/-- Number of entries of a JSON object (Python `len` on a dict). -/
def JObj.size : JObj → ℕ
  | .nil => 0
  | .cons _ _ rest => rest.size + 1

/-- First value bound to a key (Python dict lookup; keys are unique in any
dict produced by `json` parsing, so first-match is faithful). -/
def JObj.lookup? : JObj → String → Option JVal
  | .nil, _ => none
  | .cons k v rest, key => if k = key then some v else rest.lookup? key

/-- Length of a JSON array (Python `len` on a list). -/
def JArr.length : JArr → ℕ
  | .nil => 0
  | .cons _ rest => rest.length + 1

/-- Zero-based element access on a JSON array. -/
def JArr.get? : JArr → ℕ → Option JVal
  | .nil, _ => none
  | .cons v _, 0 => some v
  | .cons _ rest, n + 1 => rest.get? n

/-- Python truthiness: `None`, `False`, `0`, `""`, `[]`, and an empty dict
are falsy; everything else is truthy. -/
def truthy : JVal → Bool
  | .null => false
  | .bool b => b
  | .num q => decide (q ≠ 0)
  | .str s => decide (s ≠ "")
  | .arr .nil => false
  | .arr _ => true
  | .obj .nil => false
  | .obj _ => true

/-- Python `a or b`: `a` when truthy, else `b`. -/
def pyOr (a b : JVal) : JVal := if truthy a then a else b

/-- Python `v.get(key, default)`.  Raises (`.error`) when `v` is not a dict
(`AttributeError`), exactly as the script would. -/
def pyGetD : JVal → String → JVal → Except String JVal
  | .obj o, key, dflt => .ok ((o.lookup? key).getD dflt)
  | _, _, _ => .error "AttributeError: no attribute get"

/-- Python `len(v)`: defined on lists, strings and dicts, raises otherwise. -/
def pyLen : JVal → Except String ℕ
  | .arr a => .ok a.length
  | .str s => .ok s.length
  | .obj o => .ok o.size
  | _ => .error "TypeError: object has no len"

/-- Python `v[i]` for a non-negative index: list indexing, or string
indexing (yielding a one-character string); raises on anything else. -/
def pyIndex : JVal → ℕ → Except String JVal
  | .arr a, i =>
    match a.get? i with
    | some v => .ok v
    | none => .error "IndexError: list index out of range"
  | .str s, i =>
    match s.data.get? i with
    | some c => .ok (.str (String.mk [c]))
    | none => .error "IndexError: string index out of range"
  | _, _ => .error "TypeError: object is not subscriptable"

/-! ### The model of CPython `float(str)` -/

/-- Is `c` an ASCII decimal digit? -/
def isDigitCh (c : Char) : Bool := decide (48 ≤ c.toNat) && decide (c.toNat ≤ 57)

/-- Numeric value of an ASCII digit. -/
def digVal (c : Char) : ℕ := c.toNat - 48

/-- Is `c` ASCII whitespace (as stripped by `float(str)`)? -/
def isWsCh (c : Char) : Bool :=
  c = ' ' || c = '\t' || c = '\n' || c = '\r' || c = Char.ofNat 11 || c = Char.ofNat 12

/-- Read a maximal run of decimal digits, extending accumulator `acc` and
digit count `cnt`; returns the value, the count, and the rest. -/
def readDigits : ℕ → ℕ → List Char → ℕ × ℕ × List Char
  | acc, cnt, [] => (acc, cnt, [])
  | acc, cnt, c :: cs =>
    if isDigitCh c then readDigits (acc * 10 + digVal c) (cnt + 1) cs
    else (acc, cnt, c :: cs)

/-- Strip leading and trailing whitespace. -/
def trimWs (l : List Char) : List Char :=
  ((l.dropWhile isWsCh).reverse.dropWhile isWsCh).reverse

/-- Apply a sign flag to a magnitude. -/
def signApp (sgn : Bool) (x : ℚ) : ℚ := if sgn then x else -x

/-- Read an optional `+`/`-` sign (as accepted by `float(str)` and by
exponents); `false` means negative. -/
def readSignPy : List Char → Bool × List Char
  | [] => (true, [])
  | c :: r =>
    if c = '+' then (true, r)
    else if c = '-' then (false, r)
    else (true, c :: r)

/-- Read an optional leading `-` (the only sign JSON allows). -/
def readSignJson : List Char → Bool × List Char
  | [] => (true, [])
  | c :: r => if c = '-' then (false, r) else (true, c :: r)

/-- Read an optional `.`-prefixed fraction: its value, digit count, rest. -/
def readFrac : List Char → ℕ × ℕ × List Char
  | [] => (0, 0, [])
  | c :: r => if c = '.' then readDigits 0 0 r else (0, 0, c :: r)

/-- Finish a `float(str)` conversion after the fraction: an optional
exponent which must consume the whole remaining input. -/
def readExpPy (mag : ℚ) (sgn : Bool) : List Char → Option ℚ
  | [] => some (signApp sgn mag)
  | e :: r =>
    if e = 'e' || e = 'E' then
      let es := readSignPy r
      let ep := readDigits 0 0 es.2
      if ep.2.1 = 0 || decide (ep.2.2 ≠ []) then none
      else some (signApp sgn (mag * (10 : ℚ) ^ (if es.1 then (ep.1 : ℤ) else -(ep.1 : ℤ))))
    else none

/-- Model of CPython `float(str)` on finite decimal literals: optional
whitespace, optional sign, digits with optional decimal point, optional
decimal exponent; `none` on anything else.  The special values
`inf`/`infinity`/`nan` and underscore digit separators lie outside the
rational number model and are treated as conversion failures. -/
def parseFloatChars (l : List Char) : Option ℚ :=
  let sg := readSignPy (trimWs l)
  let ip := readDigits 0 0 sg.2
  let fp := readFrac ip.2.2
  if ip.2.1 + fp.2.1 = 0 then none
  else readExpPy ((ip.1 : ℚ) + (fp.1 : ℚ) / 10 ^ fp.2.1) sg.1 fp.2.2

/-- Model of CPython `float(x)`: numbers pass through (the rational model
makes double rounding exact), booleans become 0/1, strings are parsed,
everything else (`None`, lists, dicts) raises — which `_safe_float` and
`_safe_int` catch, so failure is modelled directly as `none`. -/
def pyFloat? : JVal → Option ℚ
  | .null => none
  | .bool b => some (if b then 1 else 0)
  | .num q => some q
  | .str s => parseFloatChars s.data
  | .arr _ => none
  | .obj _ => none

/-- Floor of a rational, written so that the kernel can evaluate it. -/
def ratFloor (q : ℚ) : ℤ := q.num / q.den

/-- Model of CPython `round(x)` on a real (here rational) value: nearest
integer, ties to the nearest even integer. -/
def pyRound (q : ℚ) : ℤ :=
  if q - (ratFloor q : ℚ) < 1 / 2 then ratFloor q
  else if 1 / 2 < q - (ratFloor q : ℚ) then ratFloor q + 1
  else if ratFloor q % 2 = 0 then ratFloor q else ratFloor q + 1

/-- Model of `_safe_float`: `None if x is None else float(x)` inside a
try/except that turns any exception into `None`. -/
def safeFloat (x : JVal) : Option ℚ :=
  match x with
  | .null => none
  | _ => pyFloat? x

/-- Model of `_safe_int`: `None if x is None else int(round(float(x)))`
inside a try/except that turns any exception into `None`.  `int` applied to
the integer returned by `round` is the identity. -/
def safeInt (x : JVal) : Option ℤ :=
  match x with
  | .null => none
  | _ => (pyFloat? x).map pyRound

/-- Inject an optional float into a JSON field (`None` becomes null). -/
def jOfFloat : Option ℚ → JVal
  | none => .null
  | some q => .num q

/-- Inject an optional int into a JSON field (`None` becomes null). -/
def jOfInt : Option ℤ → JVal
  | none => .null
  | some z => .num (z : ℚ)

/-! ### The normalizer `build_json` -/

/-- Static configuration from the script's CONFIG block. -/
def PLACE_NAME : String := "Monticello, AR"

/-- Latitude constant `33.6289`. -/
def LAT : ℚ := 336289 / 10000

/-- Longitude constant `-91.7909`. -/
def LON : ℚ := -917909 / 10000

/-- Timezone constant. -/
def TIMEZONE : String := "America/Chicago"

/-- Output filename constant. -/
def OUTFILE : String := "weather.json"

/-- The `meta` object of the output document; `now` is the string returned
by `_now_utc_iso()` at this run (the clock read, hoisted to a parameter). -/
def metaObj (place : String) (lat lon : ℚ) (tz now : String) : JObj :=
  .cons "place_name" (.str place)
    (.cons "lat" (.num lat)
      (.cons "lon" (.num lon)
        (.cons "timezone" (.str tz)
          (.cons "source" (.str "open-meteo")
            (.cons "generated_utc" (.str now) .nil)))))

/-- The `current` section of `build_json`:
`cur = raw.get("current", {}) or {}` followed by a direct field mapping,
each field independently coerced by `_safe_float` / `_safe_int`. -/
def buildCurrent (raw : JVal) : Except String JVal := do
  let cur0 ← pyGetD raw "current" (JVal.obj .nil)
  let cur := pyOr cur0 (JVal.obj .nil)
  let t ← pyGetD cur "temperature_2m" JVal.null
  let ap ← pyGetD cur "apparent_temperature" JVal.null
  let rh ← pyGetD cur "relative_humidity_2m" JVal.null
  let ws ← pyGetD cur "wind_speed_10m" JVal.null
  let wd ← pyGetD cur "wind_direction_10m" JVal.null
  let wg ← pyGetD cur "wind_gusts_10m" JVal.null
  let wc ← pyGetD cur "weather_code" JVal.null
  pure (JVal.obj
    (.cons "temperature_c" (jOfFloat (safeFloat t))
      (.cons "feels_like_c" (jOfFloat (safeFloat ap))
        (.cons "humidity_pct" (jOfInt (safeInt rh))
          (.cons "wind_speed_kmh" (jOfFloat (safeFloat ws))
            (.cons "wind_dir_deg" (jOfInt (safeInt wd))
              (.cons "wind_gust_kmh" (jOfFloat (safeFloat wg))
                (.cons "weather_code" (jOfInt (safeInt wc)) .nil))))))))

/-- `sec.get(key, []) or []`: the pattern used for every per-hour/per-day
measurement array. -/
def getSeq (sec : JVal) (key : String) : Except String JVal := do
  let v ← pyGetD sec key (JVal.arr .nil)
  pure (pyOr v (JVal.arr .nil))

/-- `conv(xs[i]) if i < len(xs) else None`: the bounds-checked field read
used inside the hourly/daily loops.  Note `len(xs)` is evaluated first and
raises when `xs` has no length, exactly as in the source. -/
def fieldAt (conv : JVal → JVal) (xs : JVal) (i : ℕ) : Except String JVal := do
  let n ← pyLen xs
  if i < n then do
    let x ← pyIndex xs i
    pure (conv x)
  else
    pure JVal.null

/-- `_safe_float` as a JSON-field conversion. -/
def fSafeFloat (x : JVal) : JVal := jOfFloat (safeFloat x)

/-- `_safe_int` as a JSON-field conversion. -/
def fSafeInt (x : JVal) : JVal := jOfInt (safeInt x)

/-- One record of the `hourly` output list, at time index `i`. -/
def hourlyRow (times temp feels pop wind wdir gust wcode : JVal) (i : ℕ) :
    Except String JVal := do
  let t ← pyIndex times i
  let v1 ← fieldAt fSafeFloat temp i
  let v2 ← fieldAt fSafeFloat feels i
  let v3 ← fieldAt fSafeInt pop i
  let v4 ← fieldAt fSafeFloat wind i
  let v5 ← fieldAt fSafeInt wdir i
  let v6 ← fieldAt fSafeFloat gust i
  let v7 ← fieldAt fSafeInt wcode i
  pure (JVal.obj
    (.cons "time" t
      (.cons "temperature_c" v1
        (.cons "feels_like_c" v2
          (.cons "precip_prob_pct" v3
            (.cons "wind_speed_kmh" v4
              (.cons "wind_dir_deg" v5
                (.cons "wind_gust_kmh" v6
                  (.cons "weather_code" v7 .nil)))))))))

/-- One record of the `daily` output list, at date index `i`. -/
def dailyRow (dates tmax tmin dpop dcode : JVal) (i : ℕ) :
    Except String JVal := do
  let d ← pyIndex dates i
  let v1 ← fieldAt fSafeFloat tmax i
  let v2 ← fieldAt fSafeFloat tmin i
  let v3 ← fieldAt fSafeInt dcode i
  let v4 ← fieldAt fSafeInt dpop i
  pure (JVal.obj
    (.cons "date" d
      (.cons "tmax_c" v1
        (.cons "tmin_c" v2
          (.cons "weather_code" v3
            (.cons "precip_prob_pct" v4 .nil))))))

/-- `for i in range(...)` append loop: build the rows for indices
`i, i+1, …, i+n-1`, stopping at the first raised exception. -/
def buildRows (mk : ℕ → Except String JVal) : ℕ → ℕ → Except String JArr
  | _, 0 => .ok .nil
  | i, n + 1 => do
    let r ← mk i
    let rest ← buildRows mk (i + 1) n
    pure (.cons r rest)

/-- The `hourly` section of `build_json`: read the time and measurement
arrays (each `h.get(key, []) or []`), keep `min(24, len(times))` entries,
and emit one bounds-checked record per kept index. -/
def buildHourly (raw : JVal) : Except String JArr := do
  let h0 ← pyGetD raw "hourly" (JVal.obj .nil)
  let h := pyOr h0 (JVal.obj .nil)
  let times ← getSeq h "time"
  let temp ← getSeq h "temperature_2m"
  let feels ← getSeq h "apparent_temperature"
  let pop ← getSeq h "precipitation_probability"
  let wind ← getSeq h "wind_speed_10m"
  let wdir ← getSeq h "wind_direction_10m"
  let gust ← getSeq h "wind_gusts_10m"
  let wcode ← getSeq h "weather_code"
  let nt ← pyLen times
  let keep := min 24 nt
  buildRows (hourlyRow times temp feels pop wind wdir gust wcode) 0 keep

/-- The `daily` section of `build_json`: same policy capped at
`min(7, len(dates))`. -/
def buildDaily (raw : JVal) : Except String JArr := do
  let d0 ← pyGetD raw "daily" (JVal.obj .nil)
  let d := pyOr d0 (JVal.obj .nil)
  let dates ← getSeq d "time"
  let tmax ← getSeq d "temperature_2m_max"
  let tmin ← getSeq d "temperature_2m_min"
  let dpop ← getSeq d "precipitation_probability_max"
  let dcode ← getSeq d "weather_code"
  let nd ← pyLen dates
  let keep := min 7 nd
  buildRows (dailyRow dates tmax tmin dpop dcode) 0 keep

/-- Model of `build_json(raw, place_name, lat, lon, tz)`.  The extra `now`
parameter is the value `_now_utc_iso()` returns during the call (the one
impure read the function performs). -/
def buildJson (raw : JVal) (place : String) (lat lon : ℚ) (tz now : String) :
    Except String JVal := do
  let current ← buildCurrent raw
  let hourly ← buildHourly raw
  let daily ← buildDaily raw
  pure (JVal.obj
    (.cons "meta" (.obj (metaObj place lat lon tz now))
      (.cons "current" current
        (.cons "hourly" (.arr hourly)
          (.cons "daily" (.arr daily) .nil)))))

/-! ### The writer: `json.dump(out, f, ensure_ascii=False, indent=2)` -/

/-- The opening brace character. -/
def lBrace : Char := Char.ofNat 123

/-- The closing brace character. -/
def rBrace : Char := Char.ofNat 125

/-- Lowercase hexadecimal digit, as produced by the CPython json encoder. -/
def hexDigitCh (n : ℕ) : Char :=
  if n < 10 then Char.ofNat (48 + n) else Char.ofNat (87 + n)

/-- How the CPython json encoder (with `ensure_ascii=False`) renders one
character inside a string literal: the two-character escapes for quote,
backslash and the common control characters, `\u00XX` for the remaining
control characters, and every other character unchanged. -/
def escChar (c : Char) : List Char :=
  if c = '"' then ['\\', '"']
  else if c = '\\' then ['\\', '\\']
  else if c = '\n' then ['\\', 'n']
  else if c = '\r' then ['\\', 'r']
  else if c = '\t' then ['\\', 't']
  else if c = Char.ofNat 8 then ['\\', 'b']
  else if c = Char.ofNat 12 then ['\\', 'f']
  else if c.toNat < 32 then
    ['\\', 'u', '0', '0', hexDigitCh (c.toNat / 16), hexDigitCh (c.toNat % 16)]
  else [c]

/-- Escape every character of a string body. -/
def escapeChars : List Char → List Char
  | [] => []
  | c :: cs => escChar c ++ escapeChars cs

/-- Big-endian decimal digits of a positive natural number (empty on 0). -/
def digitsBEAux : ℕ → List Char
  | 0 => []
  | n + 1 => digitsBEAux ((n + 1) / 10) ++ [Char.ofNat (48 + (n + 1) % 10)]
decreasing_by exact Nat.div_lt_self (Nat.succ_pos n) (by omega)

/-- Big-endian decimal rendering of a natural number. -/
def digitsBE (n : ℕ) : List Char := if n = 0 then ['0'] else digitsBEAux n

/-- Exactly `k` big-endian decimal digits of `f` (for `f < 10 ^ k`). -/
def digitsFixed : ℕ → ℕ → List Char
  | 0, _ => []
  | k + 1, f => Char.ofNat (48 + f / 10 ^ k) :: digitsFixed k (f % 10 ^ k)

/-- The least `k ≤ d` with `d ∣ 10 ^ k` (and `0` when there is none): the
number of decimal fraction digits needed to render a rational with
denominator `d` exactly. -/
def decExp (d : ℕ) : ℕ :=
  (((List.range (d + 1)).find? fun k => decide (d ∣ 10 ^ k)).getD 0)

/-- Unsigned decimal rendering of `m / 10 ^ k`. -/
def printNumBody (m k : ℕ) : List Char :=
  if k = 0 then digitsBE m
  else digitsBE (m / 10 ^ k) ++ '.' :: digitsFixed k (m % 10 ^ k)

/-- Decimal rendering of a rational number.  For a rational whose
denominator divides a power of ten — every value a JSON document can carry —
this is exact; model of how the json module renders Python numbers. -/
def printNum (q : ℚ) : List Char :=
  let k := decExp q.den
  let body := printNumBody (q.num.natAbs * (10 ^ k / q.den)) k
  if q < 0 then '-' :: body else body

/-- The newline-plus-indentation separator `json.dump(..., indent=2)` puts
before every item at nesting level `lvl`. -/
def nlIndent (lvl : ℕ) : List Char := '\n' :: List.replicate (2 * lvl) ' '

mutual
/-- Model of the json module's serializer with `ensure_ascii=False` and
`indent=2`, rendering a value at nesting level `lvl`. -/
def printVal : ℕ → JVal → List Char
  | _, .null => ['n', 'u', 'l', 'l']
  | _, .bool true => ['t', 'r', 'u', 'e']
  | _, .bool false => ['f', 'a', 'l', 's', 'e']
  | _, .num q => printNum q
  | _, .str s => '"' :: escapeChars s.data ++ ['"']
  | _, .arr .nil => ['[', ']']
  | lvl, .arr (.cons v vs) =>
    '[' :: (nlIndent (lvl + 1) ++ printVal (lvl + 1) v ++
      printArrTail (lvl + 1) vs ++ nlIndent lvl ++ [']'])
  | _, .obj .nil => [lBrace, rBrace]
  | lvl, .obj (.cons k v ms) =>
    lBrace :: (nlIndent (lvl + 1) ++ printMember (lvl + 1) k v ++
      printObjTail (lvl + 1) ms ++ nlIndent lvl ++ [rBrace])

/-- One `"key": value` member. -/
def printMember : ℕ → String → JVal → List Char
  | lvl, k, v => '"' :: escapeChars k.data ++ '"' :: ':' :: ' ' :: printVal lvl v

/-- The remaining items of an array: `,` + separator + item, repeated. -/
def printArrTail : ℕ → JArr → List Char
  | _, .nil => []
  | lvl, .cons v vs => ',' :: (nlIndent lvl ++ printVal lvl v ++ printArrTail lvl vs)

/-- The remaining members of an object. -/
def printObjTail : ℕ → JObj → List Char
  | _, .nil => []
  | lvl, .cons k v ms => ',' :: (nlIndent lvl ++ printMember lvl k v ++ printObjTail lvl ms)
end

/-- Serialize a document exactly as `json.dump(out, f, ensure_ascii=False,
indent=2)` writes it. -/
def printJson (v : JVal) : String := String.mk (printVal 0 v)

/-! ### A JSON parser (model of `json.load` on the emitted file) -/

/-- JSON insignificant whitespace. -/
def isJWs (c : Char) : Bool := c = ' ' || c = '\t' || c = '\n' || c = '\r'

/-- Drop leading JSON whitespace. -/
def skipWs : List Char → List Char
  | [] => []
  | c :: cs => if isJWs c then skipWs cs else c :: cs

/-- Value of one hexadecimal digit character. -/
def hexVal? (c : Char) : Option ℕ :=
  if isDigitCh c then some (digVal c)
  else if 97 ≤ c.toNat && c.toNat ≤ 102 then some (c.toNat - 87)
  else if 65 ≤ c.toNat && c.toNat ≤ 70 then some (c.toNat - 55)
  else none

/-- Character denoted by a single-character escape. -/
def escVal? (e : Char) : Option Char :=
  if e = '"' then some '"'
  else if e = '\\' then some '\\'
  else if e = '/' then some '/'
  else if e = 'b' then some (Char.ofNat 8)
  else if e = 'f' then some (Char.ofNat 12)
  else if e = 'n' then some '\n'
  else if e = 'r' then some '\r'
  else if e = 't' then some '\t'
  else none

/-- Parse the body of a JSON string literal (the opening quote already
consumed), returning the decoded characters and the input after the
closing quote.  The fuel argument (one unit per decoded character) keeps
the recursion structural. -/
def parseStr : ℕ → List Char → Option (List Char × List Char)
  | 0, _ => none
  | _ + 1, [] => none
  | f + 1, c :: cs =>
    if c = '"' then some ([], cs)
    else if c = '\\' then
      match cs with
      | [] => none
      | e :: cs1 =>
        if e = 'u' then
          match cs1 with
          | h1 :: h2 :: h3 :: h4 :: cs2 =>
            match hexVal? h1, hexVal? h2, hexVal? h3, hexVal? h4 with
            | some a, some b, some c3, some d =>
              match parseStr f cs2 with
              | some (s, rest) => some (Char.ofNat (((a * 16 + b) * 16 + c3) * 16 + d) :: s, rest)
              | none => none
            | _, _, _, _ => none
          | _ => none
        else
          match escVal? e with
          | some ch =>
            match parseStr f cs1 with
            | some (s, rest) => some (ch :: s, rest)
            | none => none
          | none => none
    else
      match parseStr f cs with
      | some (s, rest) => some (c :: s, rest)
      | none => none

/-- Finish a JSON number after the fraction: an optional exponent, leaving
the rest of the input for the surrounding parser. -/
def readExpJson (mag : ℚ) (sgn : Bool) : List Char → Option (ℚ × List Char)
  | [] => some (signApp sgn mag, [])
  | e :: r =>
    if e = 'e' || e = 'E' then
      let es := readSignPy r
      let ep := readDigits 0 0 es.2
      if ep.2.1 = 0 then none
      else
        some (signApp sgn (mag * (10 : ℚ) ^ (if es.1 then (ep.1 : ℤ) else -(ep.1 : ℤ))),
          ep.2.2)
    else some (signApp sgn mag, e :: r)

/-- Parse a JSON number literal: optional minus, integer digits, optional
fraction, optional exponent. -/
def parseNum (l : List Char) : Option (ℚ × List Char) :=
  let sg := readSignJson l
  let ip := readDigits 0 0 sg.2
  if ip.2.1 = 0 then none
  else
    let fp := readFrac ip.2.2
    readExpJson ((ip.1 : ℚ) + (fp.1 : ℚ) / 10 ^ fp.2.1) sg.1 fp.2.2

mutual
/-- Recursive-descent JSON value parser; the fuel argument (instantiated
with the input length at top level) bounds the recursion depth. -/
def parseVal : ℕ → List Char → Option (JVal × List Char)
  | 0, _ => none
  | f + 1, l =>
    match skipWs l with
    | [] => none
    | c :: cs =>
      if c = 'n' then
        match cs with
        | 'u' :: 'l' :: 'l' :: r => some (.null, r)
        | _ => none
      else if c = 't' then
        match cs with
        | 'r' :: 'u' :: 'e' :: r => some (.bool true, r)
        | _ => none
      else if c = 'f' then
        match cs with
        | 'a' :: 'l' :: 's' :: 'e' :: r => some (.bool false, r)
        | _ => none
      else if c = '"' then
        match parseStr f cs with
        | some (s, r) => some (.str (String.mk s), r)
        | none => none
      else if c = '[' then parseArr f cs
      else if c = lBrace then parseObj f cs
      else
        match parseNum (c :: cs) with
        | some (q, r) => some (.num q, r)
        | none => none

/-- Parse an array (opening bracket already consumed). -/
def parseArr : ℕ → List Char → Option (JVal × List Char)
  | 0, _ => none
  | f + 1, l =>
    match skipWs l with
    | [] => none
    | c :: cs =>
      if c = ']' then some (.arr .nil, cs)
      else
        match parseVal f (c :: cs) with
        | some (v, r) =>
          match parseArrTail f r with
          | some (vs, r2) => some (.arr (.cons v vs), r2)
          | none => none
        | none => none

/-- Parse the `, item … ]` tail of an array. -/
def parseArrTail : ℕ → List Char → Option (JArr × List Char)
  | 0, _ => none
  | f + 1, l =>
    match skipWs l with
    | [] => none
    | c :: cs =>
      if c = ']' then some (.nil, cs)
      else if c = ',' then
        match parseVal f cs with
        | some (v, r1) =>
          match parseArrTail f r1 with
          | some (vs, r2) => some (.cons v vs, r2)
          | none => none
        | none => none
      else none

/-- Parse an object (opening brace already consumed). -/
def parseObj : ℕ → List Char → Option (JVal × List Char)
  | 0, _ => none
  | f + 1, l =>
    match skipWs l with
    | c :: cs =>
      if c = rBrace then some (.obj .nil, cs)
      else if c = '"' then
        match parseMember f cs with
        | some (k, v, r) =>
          match parseObjTail f r with
          | some (ms, r2) => some (.obj (.cons k v ms), r2)
          | none => none
        | none => none
      else none
    | [] => none

/-- Parse `key": value` (the key's opening quote already consumed). -/
def parseMember : ℕ → List Char → Option (String × JVal × List Char)
  | 0, _ => none
  | f + 1, l =>
    match parseStr f l with
    | some (k, r) =>
      match skipWs r with
      | ':' :: r1 =>
        match parseVal f r1 with
        | some (v, r2) => some (String.mk k, v, r2)
        | none => none
      | _ => none
    | none => none

/-- Parse the `, "key": value … }` tail of an object. -/
def parseObjTail : ℕ → List Char → Option (JObj × List Char)
  | 0, _ => none
  | f + 1, l =>
    match skipWs l with
    | c :: cs =>
      if c = rBrace then some (.nil, cs)
      else if c = ',' then
        match skipWs cs with
        | c1 :: cs1 =>
          if c1 = '"' then
            match parseMember f cs1 with
            | some (k, v, r) =>
              match parseObjTail f r with
              | some (ms, r2) => some (.cons k v ms, r2)
              | none => none
            | none => none
          else none
        | [] => none
      else none
    | [] => none
end

/-- Model of `json.load` on the emitted file: parse one value and require
only whitespace after it. -/
def parseJson (s : String) : Option JVal :=
  match parseVal (s.length + 1) s.data with
  | some (v, rest) => if skipWs rest = [] then some v else none
  | none => none

/-! ### Exactly representable (decimal) numbers -/

/-- A rational is decimal when it is `m / 10 ^ k` for some integer `m`:
exactly the numeric values a JSON text can denote, and the values on which
the serializer is exact. -/
def IsDecQ (q : ℚ) : Prop := ∃ (m : ℤ) (k : ℕ), q = (m : ℚ) / 10 ^ k

mutual
/-- Every number inside the value is decimal. -/
def DecV : JVal → Prop
  | .num q => IsDecQ q
  | .arr a => DecA a
  | .obj o => DecO o
  | _ => True

/-- Every number inside the array is decimal. -/
def DecA : JArr → Prop
  | .nil => True
  | .cons v vs => DecV v ∧ DecA vs

/-- Every number inside the object is decimal. -/
def DecO : JObj → Prop
  | .nil => True
  | .cons _ v ms => DecV v ∧ DecO ms
end

/-! ### The driver `main` -/

/-- Observable outcome of one run of the script. -/
structure MainOutcome where
  exitCode : ℕ
  stdout : List String
  stderr : List String
  written : Option String
deriving DecidableEq

/-- Model of `main()`.  The two interactions with the outside world are
parameters: `fetch` is the outcome of `fetch_open_meteo` (the parsed body,
or the message of the raised exception), and `writeRes` tells whether the
file write succeeds.  The single `try/except` prints `ERROR: <message>` to
stderr and exits 1 on any raised exception; otherwise the serialized
document is written and `Wrote weather.json` is printed. -/
def mainRun (fetch : Except String JVal) (now : String)
    (writeRes : Except String Unit) : MainOutcome :=
  match fetch with
  | .error e => ⟨1, [], ["ERROR: " ++ e], none⟩
  | .ok raw =>
    match buildJson raw PLACE_NAME LAT LON TIMEZONE now with
    | .error e => ⟨1, [], ["ERROR: " ++ e], none⟩
    | .ok out =>
      match writeRes with
      | .error e => ⟨1, [], ["ERROR: " ++ e], none⟩
      | .ok _ => ⟨0, ["Wrote " ++ OUTFILE], [], some (printJson out)⟩

/-! ### Spec-side definitions (for comparison against the claims' words) -/

/-- Written from the claim's words, not from the source: the nearest
integer to `q`, resolving exact halves away from zero. -/
def nearestAwayFromZero (q : ℚ) : ℤ :=
  if 0 ≤ q then ⌊q + 1 / 2⌋ else ⌈q - 1 / 2⌉

/-- Remove one key from an object. -/
def JObj.removeKey : JObj → String → JObj
  | .nil, _ => .nil
  | .cons k v rest, key =>
    if k = key then rest.removeKey key else .cons k v (rest.removeKey key)

/-- Helper for `stripGenerated`: rewrite the `meta` member. -/
def stripGeneratedTop : JObj → JObj
  | .nil => .nil
  | .cons k v rest =>
    if k = "meta" then
      match v with
      | .obj m => .cons k (.obj (m.removeKey "generated_utc")) (stripGeneratedTop rest)
      | _ => .cons k v (stripGeneratedTop rest)
    else .cons k v (stripGeneratedTop rest)

/-- Drop the `generated_utc` entry from the `meta` section of an output
document: the part of the output that depends on the wall clock. -/
def stripGenerated : JVal → JVal
  | .obj top => .obj (stripGeneratedTop top)
  | v => v

/-! ### Auxiliary definitions used by the statements and proofs -/

/-- Number of decimal digits `digitsBEAux` produces. -/
def numDigits : ℕ → ℕ
  | 0 => 0
  | n + 1 => numDigits ((n + 1) / 10) + 1
decreasing_by exact Nat.div_lt_self (Nat.succ_pos n) (by omega)

/-- The next character (if any) is not a decimal digit. -/
def nonDigitHead : List Char → Prop
  | [] => True
  | c :: _ => isDigitCh c = false

/-- The next character (if any) cannot extend a number literal. -/
def numBoundary : List Char → Prop
  | [] => True
  | c :: _ => isDigitCh c = false ∧ c ≠ '.' ∧ c ≠ 'e' ∧ c ≠ 'E'

/-- A JSON field value that is a number or an explicit null (in particular
not a string). -/
def NumOrNull (v : JVal) : Prop := (∃ q, v = JVal.num q) ∨ v = JVal.null

/-- The `current` record `build_json` produces from the raw `current`
mapping `c`: each field independently converted, with absent fields read
as `None`. -/
def currentRecord (c : JObj) : JObj :=
  .cons "temperature_c" (jOfFloat (safeFloat ((c.lookup? "temperature_2m").getD .null)))
    (.cons "feels_like_c" (jOfFloat (safeFloat ((c.lookup? "apparent_temperature").getD .null)))
      (.cons "humidity_pct" (jOfInt (safeInt ((c.lookup? "relative_humidity_2m").getD .null)))
        (.cons "wind_speed_kmh" (jOfFloat (safeFloat ((c.lookup? "wind_speed_10m").getD .null)))
          (.cons "wind_dir_deg" (jOfInt (safeInt ((c.lookup? "wind_direction_10m").getD .null)))
            (.cons "wind_gust_kmh" (jOfFloat (safeFloat ((c.lookup? "wind_gusts_10m").getD .null)))
              (.cons "weather_code" (jOfInt (safeInt ((c.lookup? "weather_code").getD .null)))
                .nil))))))

/-- The all-null `current` record (what a missing or falsy raw `current`
section produces). -/
def nullCurrentRecord : JObj :=
  .cons "temperature_c" .null
    (.cons "feels_like_c" .null
      (.cons "humidity_pct" .null
        (.cons "wind_speed_kmh" .null
          (.cons "wind_dir_deg" .null
            (.cons "wind_gust_kmh" .null
              (.cons "weather_code" .null .nil))))))

/-- The record `build_json` appends for hour index `i`, given the raw
measurement arrays: each field is the converted element when `i` is within
that array's own bounds, else null. -/
def hourlyRecord (t : JVal) (temp feels pop wind wdir gust wcode : JArr) (i : ℕ) : JObj :=
  .cons "time" t
    (.cons "temperature_c" ((temp.get? i).elim JVal.null fSafeFloat)
      (.cons "feels_like_c" ((feels.get? i).elim JVal.null fSafeFloat)
        (.cons "precip_prob_pct" ((pop.get? i).elim JVal.null fSafeInt)
          (.cons "wind_speed_kmh" ((wind.get? i).elim JVal.null fSafeFloat)
            (.cons "wind_dir_deg" ((wdir.get? i).elim JVal.null fSafeInt)
              (.cons "wind_gust_kmh" ((gust.get? i).elim JVal.null fSafeFloat)
                (.cons "weather_code" ((wcode.get? i).elim JVal.null fSafeInt) .nil)))))))

/-- The record `build_json` appends for day index `i`. -/
def dailyRecord (d : JVal) (tmax tmin dpop dcode : JArr) (i : ℕ) : JObj :=
  .cons "date" d
    (.cons "tmax_c" ((tmax.get? i).elim JVal.null fSafeFloat)
      (.cons "tmin_c" ((tmin.get? i).elim JVal.null fSafeFloat)
        (.cons "weather_code" ((dcode.get? i).elim JVal.null fSafeInt)
          (.cons "precip_prob_pct" ((dpop.get? i).elim JVal.null fSafeInt) .nil))))

/-- A record field that is present and numeric-or-null. -/
def NumField (rc : JObj) (key : String) : Prop :=
  ∃ v, rc.lookup? key = some v ∧ NumOrNull v

/-- Shape of every record of the `hourly` output list: an object whose
seven numeric fields are numbers or nulls. -/
def HourlyShape (row : JVal) : Prop :=
  ∃ rc, row = JVal.obj rc ∧ NumField rc "temperature_c" ∧ NumField rc "feels_like_c" ∧
    NumField rc "precip_prob_pct" ∧ NumField rc "wind_speed_kmh" ∧
    NumField rc "wind_dir_deg" ∧ NumField rc "wind_gust_kmh" ∧
    NumField rc "weather_code"

/-- Shape of every record of the `daily` output list. -/
def DailyShape (row : JVal) : Prop :=
  ∃ rc, row = JVal.obj rc ∧ NumField rc "tmax_c" ∧ NumField rc "tmin_c" ∧
    NumField rc "weather_code" ∧ NumField rc "precip_prob_pct"

/-- Shape of the `current` output record. -/
def CurrentShape (cur : JVal) : Prop :=
  ∃ rc, cur = JVal.obj rc ∧ NumField rc "temperature_c" ∧ NumField rc "feels_like_c" ∧
    NumField rc "humidity_pct" ∧ NumField rc "wind_speed_kmh" ∧
    NumField rc "wind_dir_deg" ∧ NumField rc "wind_gust_kmh" ∧
    NumField rc "weather_code"

/-- A raw response whose hourly and daily sections carry empty time arrays
(the spec's empty-sections test case). -/
def rawEmptyTimes : JVal :=
  .obj (.cons "hourly" (.obj (.cons "time" (.arr .nil) .nil))
    (.cons "daily" (.obj (.cons "time" (.arr .nil) .nil)) .nil))

/-- Concrete hourly section used by test witnesses: a one-entry time array,
measurement arrays absent. -/
def hourlyW : JObj := .cons "time" (.arr (.cons (.str "2026-01-28T17:00") .nil)) .nil

/-- Concrete daily section used by test witnesses. -/
def dailyW : JObj := .cons "time" (.arr (.cons (.str "2026-01-28") .nil)) .nil

/-- Concrete raw response used by test witnesses. -/
def rawW : JObj := .cons "hourly" (.obj hourlyW) (.cons "daily" (.obj dailyW) .nil)

/-- The document produced from an empty raw response with placeholder
metadata. -/
def docEmpty : JVal :=
  .obj (.cons "meta" (.obj (metaObj "p" 0 0 "tz" "now"))
    (.cons "current" (.obj nullCurrentRecord)
      (.cons "hourly" (.arr .nil)
        (.cons "daily" (.arr .nil) .nil))))

/-- The document produced from an empty raw response with the script's
static configuration. -/
def docMain : JVal :=
  .obj (.cons "meta" (.obj (metaObj PLACE_NAME LAT LON TIMEZONE
      "2026-01-01T00:00:00+00:00"))
    (.cons "current" (.obj nullCurrentRecord)
      (.cons "hourly" (.arr .nil)
        (.cons "daily" (.arr .nil) .nil))))

/-! ## Lemmas -/

/-! ### Monadic and structural basics -/

@[simp]
theorem ok_bind {α β : Type} (a : α) (f : α → Except String β) :
    (Except.ok a >>= f) = f a := rfl

@[simp]
theorem error_bind {α β : Type} (e : String) (f : α → Except String β) :
    ((Except.error e : Except String α) >>= f) = Except.error e := rfl

theorem JArr.get?_some_of_lt : ∀ (a : JArr) (i : ℕ), i < a.length → ∃ v, a.get? i = some v
  | .nil, _, h => absurd h (by simp [JArr.length])
  | .cons v _, 0, _ => ⟨v, rfl⟩
  | .cons _ rest, n + 1, h =>
    JArr.get?_some_of_lt rest n (by simpa [JArr.length] using h)

theorem JArr.get?_none_of_le : ∀ (a : JArr) (i : ℕ), a.length ≤ i → a.get? i = none
  | .nil, _, _ => rfl
  | .cons _ _, 0, h => absurd h (by simp [JArr.length])
  | .cons _ rest, n + 1, h =>
    JArr.get?_none_of_le rest n (by simpa [JArr.length] using h)

theorem pyOr_obj (h : JObj) : pyOr (.obj h) (.obj .nil) = .obj h := by
  cases h <;> simp [pyOr, truthy]

/-! ### Digit characters and digit strings -/

theorem digit_char_facts (r : ℕ) (h : r < 10) :
    isDigitCh (Char.ofNat (48 + r)) = true ∧ digVal (Char.ofNat (48 + r)) = r ∧
      isJWs (Char.ofNat (48 + r)) = false := by
  interval_cases r <;> exact ⟨by decide, by decide, by decide⟩

theorem readDigits_stop {c : Char} (hc : isDigitCh c = false) (acc cnt : ℕ)
    (l : List Char) : readDigits acc cnt (c :: l) = (acc, cnt, c :: l) := by
  simp [readDigits, hc]

theorem readDigits_digitsBEAux (m : ℕ) :
    ∀ (acc cnt : ℕ) (rest : List Char),
      readDigits acc cnt (digitsBEAux m ++ rest) =
        readDigits (acc * 10 ^ numDigits m + m) (cnt + numDigits m) rest := by
  induction m using Nat.strong_induction_on with
  | _ m ih =>
    match m with
    | 0 => intro acc cnt rest; simp [digitsBEAux, numDigits]
    | n + 1 =>
      intro acc cnt rest
      have hq : (n + 1) / 10 < n + 1 := Nat.div_lt_self (Nat.succ_pos n) (by omega)
      have hr : (n + 1) % 10 < 10 := Nat.mod_lt _ (by omega)
      obtain ⟨hd1, hd2, _⟩ := digit_char_facts ((n + 1) % 10) hr
      rw [show digitsBEAux (n + 1) ++ rest =
        digitsBEAux ((n + 1) / 10) ++ (Char.ofNat (48 + (n + 1) % 10) :: rest) from by
          rw [digitsBEAux, List.append_assoc]; rfl]
      rw [ih _ hq]
      rw [readDigits]
      simp only [hd1, if_true, hd2]
      have h2 : (n + 1) / 10 * 10 + (n + 1) % 10 = n + 1 := by omega
      have hX : (acc * 10 ^ numDigits ((n + 1) / 10) + (n + 1) / 10) * 10 + (n + 1) % 10 =
          acc * 10 ^ numDigits (n + 1) + (n + 1) := by
        rw [show numDigits (n + 1) = numDigits ((n + 1) / 10) + 1 from by rw [numDigits]]
        calc (acc * 10 ^ numDigits ((n + 1) / 10) + (n + 1) / 10) * 10 + (n + 1) % 10 =
            acc * (10 ^ numDigits ((n + 1) / 10) * 10) +
              ((n + 1) / 10 * 10 + (n + 1) % 10) := by ring
          _ = acc * 10 ^ (numDigits ((n + 1) / 10) + 1) + (n + 1) := by
              rw [h2, pow_succ]
      have hY : cnt + numDigits ((n + 1) / 10) + 1 = cnt + numDigits (n + 1) := by
        rw [show numDigits (n + 1) = numDigits ((n + 1) / 10) + 1 from by rw [numDigits]]
        omega
      rw [hX, hY]

theorem readDigits_digitsFixed :
    ∀ (k f acc cnt : ℕ), f < 10 ^ k → ∀ rest : List Char,
      readDigits acc cnt (digitsFixed k f ++ rest) =
        readDigits (acc * 10 ^ k + f) (cnt + k) rest := by
  intro k
  induction k with
  | zero =>
    intro f acc cnt hf rest
    interval_cases f
    simp [digitsFixed]
  | succ k ih =>
    intro f acc cnt hf rest
    have hpos : 0 < 10 ^ k := by positivity
    have hq : f / 10 ^ k < 10 := by
      have h1 : f < 10 * 10 ^ k := by
        have := pow_succ 10 k
        omega
      exact Nat.div_lt_of_lt_mul (by omega)
    obtain ⟨hd1, hd2, _⟩ := digit_char_facts (f / 10 ^ k) hq
    rw [show digitsFixed (k + 1) f =
      Char.ofNat (48 + f / 10 ^ k) :: digitsFixed k (f % 10 ^ k) from rfl]
    rw [List.cons_append, readDigits]
    simp only [hd1, if_true, hd2]
    rw [ih (f % 10 ^ k) _ _ (Nat.mod_lt _ hpos) rest]
    have h2 : 10 ^ k * (f / 10 ^ k) + f % 10 ^ k = f := Nat.div_add_mod f (10 ^ k)
    have hX : (acc * 10 + f / 10 ^ k) * 10 ^ k + f % 10 ^ k =
        acc * 10 ^ (k + 1) + f := by
      calc (acc * 10 + f / 10 ^ k) * 10 ^ k + f % 10 ^ k =
          acc * (10 ^ k * 10) + (10 ^ k * (f / 10 ^ k) + f % 10 ^ k) := by ring
        _ = acc * 10 ^ (k + 1) + f := by rw [h2, pow_succ]
    have hY : cnt + 1 + k = cnt + (k + 1) := by omega
    rw [hX, hY]

theorem digitsBEAux_head (m : ℕ) (hm : m ≠ 0) :
    ∃ (r : ℕ) (ds : List Char), r < 10 ∧ digitsBEAux m = Char.ofNat (48 + r) :: ds := by
  induction m using Nat.strong_induction_on with
  | _ m ih =>
    match m with
    | 0 => exact absurd rfl hm
    | n + 1 =>
      rw [digitsBEAux]
      rcases Nat.eq_zero_or_pos ((n + 1) / 10) with hq | hq
      · rw [hq]
        exact ⟨(n + 1) % 10, [], Nat.mod_lt _ (by omega), by simp [digitsBEAux]⟩
      · obtain ⟨r, ds, hr, heq⟩ :=
          ih ((n + 1) / 10) (Nat.div_lt_self (Nat.succ_pos n) (by omega)) (by omega)
        exact ⟨r, ds ++ [Char.ofNat (48 + (n + 1) % 10)], hr, by rw [heq]; rfl⟩

theorem digitsBE_head (m : ℕ) :
    ∃ (r : ℕ) (ds : List Char), r < 10 ∧ digitsBE m = Char.ofNat (48 + r) :: ds := by
  rcases Nat.eq_zero_or_pos m with hm | hm
  · exact ⟨0, [], by omega, by simp [hm, digitsBE]⟩
  · obtain ⟨r, ds, hr, heq⟩ := digitsBEAux_head m (by omega)
    exact ⟨r, ds, hr, by simp [digitsBE, heq]; omega⟩

theorem readDigits_digitsBE (m : ℕ) (rest : List Char) (h : nonDigitHead rest) :
    ∃ cnt, 0 < cnt ∧ readDigits 0 0 (digitsBE m ++ rest) = (m, cnt, rest) := by
  have hstop : readDigits m (if m = 0 then 1 else numDigits m) rest =
      (m, if m = 0 then 1 else numDigits m, rest) := by
    cases rest with
    | nil => rfl
    | cons c cs => exact readDigits_stop h _ _ _
  rcases Nat.eq_zero_or_pos m with hm | hm
  · subst hm
    refine ⟨1, by omega, ?_⟩
    have h0 : isDigitCh '0' = true := by decide
    have hv : digVal '0' = 0 := by decide
    simp only [digitsBE, if_true, List.cons_append, List.nil_append]
    rw [readDigits]
    simp only [h0, if_true, hv]
    simpa using hstop
  · have hnd : numDigits m ≠ 0 := by
      match m, hm with
      | n + 1, _ => rw [numDigits]; omega
    refine ⟨numDigits m, by omega, ?_⟩
    rw [show digitsBE m = digitsBEAux m from by simp [digitsBE]; omega]
    rw [readDigits_digitsBEAux]
    simp only [zero_mul, zero_add]
    simpa [hm.ne.symm, if_neg] using hstop

/-! ### Decimal rationals and the exactness of `printNum` -/

theorem dvd_ten_pow_self (k : ℕ) : ∀ d : ℕ, d ∣ 10 ^ k → d ∣ 10 ^ d := by
  intro d
  induction d using Nat.strong_induction_on with
  | _ d ih =>
    intro h
    rcases Nat.eq_zero_or_pos d with rfl | hd0
    · exact absurd (Nat.eq_zero_of_zero_dvd h) (pow_ne_zero k (by omega))
    rcases eq_or_ne d 1 with rfl | hd1
    · exact one_dvd _
    obtain ⟨p, hp, hpd⟩ := Nat.exists_prime_and_dvd hd1
    have hp10 : p ∣ 10 := hp.dvd_of_dvd_pow (hpd.trans h)
    obtain ⟨e, rfl⟩ := hpd
    have he0 : 0 < e := by
      rcases Nat.eq_zero_or_pos e with rfl | he0
      · simp at hd0
      · exact he0
    have helt : e < p * e := by
      have h2 := hp.two_le
      calc e = 1 * e := (one_mul e).symm
        _ < p * e := (Nat.mul_lt_mul_right he0).mpr (by omega)
    have hedvd : e ∣ 10 ^ k := (dvd_mul_left e p).trans h
    have hihe : e ∣ 10 ^ e := ih e helt hedvd
    have hmul : p * e ∣ 10 * 10 ^ e := mul_dvd_mul hp10 hihe
    refine hmul.trans ?_
    rw [← pow_succ']
    refine pow_dvd_pow 10 ?_
    have h2 := hp.two_le
    calc e + 1 ≤ e + e := by omega
      _ = 2 * e := by ring
      _ ≤ p * e := Nat.mul_le_mul_right e h2

theorem decExp_dvd (d : ℕ) (h : ∃ k, d ∣ 10 ^ k) : d ∣ 10 ^ decExp d := by
  obtain ⟨k, hk⟩ := h
  have hd : d ∣ 10 ^ d := dvd_ten_pow_self k d hk
  unfold decExp
  cases hfind : (List.range (d + 1)).find? fun k => decide (d ∣ 10 ^ k) with
  | none =>
    exfalso
    have hall := List.find?_eq_none.mp hfind d (List.mem_range.mpr (Nat.lt_succ_self d))
    simp only [decide_eq_true_eq] at hall
    exact hall hd
  | some k0 =>
    have hk0 := List.find?_some hfind
    simp only [decide_eq_true_eq] at hk0
    simpa using hk0

theorem IsDecQ.den_dvd {q : ℚ} (h : IsDecQ q) : (q.den : ℕ) ∣ 10 ^ decExp q.den := by
  refine decExp_dvd q.den ?_
  obtain ⟨m, k, rfl⟩ := h
  refine ⟨k, ?_⟩
  have h1 : (((Rat.divInt m (10 ^ k)).den : ℤ)) ∣ (10 ^ k : ℤ) := Rat.den_dvd m (10 ^ k)
  have h2 : (m : ℚ) / 10 ^ k = Rat.divInt m (10 ^ k) := by
    rw [Rat.divInt_eq_div]
    push_cast
    ring
  rw [h2]
  exact_mod_cast h1

theorem abs_as_digits {q : ℚ} (h : IsDecQ q) :
    ((q.num.natAbs * (10 ^ decExp q.den / q.den) : ℕ) : ℚ) / 10 ^ decExp q.den = |q| := by
  have hdvd := h.den_dvd
  obtain ⟨c, hc⟩ := hdvd
  have hden0 : (q.den : ℕ) ≠ 0 := q.den_nz
  have hc0 : c ≠ 0 := by
    intro rfl0
    rw [rfl0, mul_zero] at hc
    exact pow_ne_zero (decExp q.den) (by omega : (10 : ℕ) ≠ 0) hc
  have hquot : 10 ^ decExp q.den / q.den = c := by
    rw [hc]
    exact Nat.mul_div_cancel_left c (by omega)
  rw [hquot]
  have hcq : (c : ℚ) ≠ 0 := by exact_mod_cast hc0
  have habs : |q| = (q.num.natAbs : ℚ) / (q.den : ℚ) := by
    conv_lhs => rw [← Rat.num_div_den q]
    rw [abs_div]
    congr 1
    · rw [Int.cast_natAbs, Int.cast_abs]
    · rw [abs_of_pos (by exact_mod_cast q.pos)]
  have hpow : ((10 : ℚ) ^ decExp q.den) = (q.den : ℚ) * (c : ℚ) := by
    have h3 : ((10 ^ decExp q.den : ℕ) : ℚ) = ((q.den * c : ℕ) : ℚ) := by rw [hc]
    push_cast at h3
    exact h3
  rw [habs, hpow]
  push_cast
  rw [mul_div_mul_right _ _ hcq]

/-! ### `parseNum` inverts `printNum` on decimal rationals -/

theorem isDigitCh_iff (c : Char) : isDigitCh c = true ↔ 48 ≤ c.toNat ∧ c.toNat ≤ 57 := by
  simp [isDigitCh]

theorem char_ne_of_toNat {c d : Char} (h : c.toNat ≠ d.toNat) : c ≠ d :=
  fun he => h (by rw [he])

theorem digit_ne (c : Char) (hc : isDigitCh c = true) (d : Char)
    (hd : d.toNat < 48 ∨ 57 < d.toNat) : c ≠ d := by
  rw [isDigitCh_iff] at hc
  exact char_ne_of_toNat (by omega)

theorem numBoundary_nonDigit {rest : List Char} (h : numBoundary rest) :
    nonDigitHead rest := by
  cases rest with
  | nil => trivial
  | cons c cs => exact h.1

theorem readDigits_stopAt (m' cnt : ℕ) (rest : List Char) (h : nonDigitHead rest) :
    readDigits m' cnt rest = (m', cnt, rest) := by
  cases rest with
  | nil => rfl
  | cons c cs => exact readDigits_stop h _ _ _

theorem readFrac_no (rest : List Char) (h : numBoundary rest) :
    readFrac rest = (0, 0, rest) := by
  cases rest with
  | nil => rfl
  | cons c cs => simp [readFrac, h.2.1]

theorem readExpJson_no (mag : ℚ) (sgn : Bool) (rest : List Char) (h : numBoundary rest) :
    readExpJson mag sgn rest = some (signApp sgn mag, rest) := by
  cases rest with
  | nil => rfl
  | cons c cs => simp [readExpJson, h.2.2.1, h.2.2.2]

theorem printNumBody_head (m k : ℕ) :
    ∃ (r : ℕ) (ds : List Char), r < 10 ∧ printNumBody m k = Char.ofNat (48 + r) :: ds := by
  unfold printNumBody
  rcases eq_or_ne k 0 with hk | hk
  · obtain ⟨r, ds, hr, hbe⟩ := digitsBE_head m
    exact ⟨r, ds, hr, by simp [hk, hbe]⟩
  · obtain ⟨r, ds, hr, hbe⟩ := digitsBE_head (m / 10 ^ k)
    exact ⟨r, ds ++ '.' :: digitsFixed k (m % 10 ^ k), hr, by simp [hk, hbe]⟩

theorem body_parse (m k : ℕ) (rest : List Char) (hrest : numBoundary rest) :
    ∃ i cnt r1 fv fc,
      readDigits 0 0 (printNumBody m k ++ rest) = (i, cnt, r1) ∧ 0 < cnt ∧
        readFrac r1 = (fv, fc, rest) ∧
        ((i : ℚ) + (fv : ℚ) / 10 ^ fc) = (m : ℚ) / 10 ^ k := by
  have hnd : nonDigitHead rest := numBoundary_nonDigit hrest
  rcases eq_or_ne k 0 with hk | hk
  · obtain ⟨cnt, hcnt, hrd⟩ := readDigits_digitsBE m rest hnd
    refine ⟨m, cnt, rest, 0, 0, ?_, hcnt, readFrac_no rest hrest, ?_⟩
    · simpa [printNumBody, hk] using hrd
    · simp [hk]
  · have hpos : 0 < 10 ^ k := by positivity
    have hdotnd : nonDigitHead ('.' :: (digitsFixed k (m % 10 ^ k) ++ rest)) := by
      show isDigitCh '.' = false
      decide
    obtain ⟨cnt, hcnt, hrd⟩ :=
      readDigits_digitsBE (m / 10 ^ k) ('.' :: (digitsFixed k (m % 10 ^ k) ++ rest)) hdotnd
    refine ⟨m / 10 ^ k, cnt, '.' :: (digitsFixed k (m % 10 ^ k) ++ rest),
      m % 10 ^ k, k, ?_, hcnt, ?_, ?_⟩
    · rw [show printNumBody m k ++ rest =
        digitsBE (m / 10 ^ k) ++ ('.' :: (digitsFixed k (m % 10 ^ k) ++ rest)) from by
          simp [printNumBody, hk]]
      exact hrd
    · show readFrac ('.' :: (digitsFixed k (m % 10 ^ k) ++ rest)) = _
      rw [readFrac]
      simp only [if_pos rfl]
      rw [readDigits_digitsFixed k (m % 10 ^ k) 0 0 (Nat.mod_lt _ hpos) rest]
      simpa using readDigits_stopAt (m % 10 ^ k) k rest hnd
    · have hdm : 10 ^ k * (m / 10 ^ k) + m % 10 ^ k = m := Nat.div_add_mod m (10 ^ k)
      have hcast := congrArg (fun n : ℕ => (n : ℚ)) hdm
      push_cast at hcast
      have hq0 : ((10 : ℚ)) ^ k ≠ 0 := by positivity
      field_simp
      linear_combination hcast

theorem parseNum_printNum (q : ℚ) (h : IsDecQ q) (rest : List Char)
    (hrest : numBoundary rest) : parseNum (printNum q ++ rest) = some (q, rest) := by
  have habs := abs_as_digits h
  obtain ⟨i, cnt, r1, fv, fc, hrd, hcnt, hfr, hval⟩ :=
    body_parse (q.num.natAbs * (10 ^ decExp q.den / q.den)) (decExp q.den) rest hrest
  have hvq : (i : ℚ) + (fv : ℚ) / 10 ^ fc = |q| := by rw [hval]; exact habs
  by_cases hq : q < 0
  · have hp : printNum q ++ rest =
        '-' :: (printNumBody (q.num.natAbs * (10 ^ decExp q.den / q.den)) (decExp q.den)
          ++ rest) := by
      simp [printNum, hq]
    rw [hp, parseNum]
    simp [readSignJson, hrd, hfr, Nat.pos_iff_ne_zero.mp hcnt]
    rw [readExpJson_no _ _ rest hrest]
    have : signApp false ((i : ℚ) + (fv : ℚ) / 10 ^ fc) = q := by
      rw [signApp, hvq, abs_of_neg hq]
      simp
    rw [this]
  · obtain ⟨r, ds, hrlt, hb⟩ :=
      printNumBody_head (q.num.natAbs * (10 ^ decExp q.den / q.den)) (decExp q.den)
    obtain ⟨hdig, _, _⟩ := digit_char_facts r hrlt
    have hne : Char.ofNat (48 + r) ≠ '-' := digit_ne _ hdig '-' (by left; decide)
    have hp : printNum q ++ rest =
        printNumBody (q.num.natAbs * (10 ^ decExp q.den / q.den)) (decExp q.den) ++ rest := by
      simp [printNum, hq]
    rw [hp, parseNum]
    rw [hb] at hrd ⊢
    simp only [List.cons_append] at hrd
    simp [readSignJson, hne, hrd, hfr, Nat.pos_iff_ne_zero.mp hcnt]
    rw [readExpJson_no _ _ rest hrest]
    have : signApp true ((i : ℚ) + (fv : ℚ) / 10 ^ fc) = q := by
      rw [signApp, hvq, abs_of_nonneg (le_of_not_lt hq)]
      simp
    rw [this]

/-! ### `parseStr` inverts the string escaper -/

theorem hexVal?_hexDigitCh (n : ℕ) (h : n < 16) : hexVal? (hexDigitCh n) = some n := by
  interval_cases n <;> decide

theorem escChar_len_pos (c : Char) : 1 ≤ (escChar c).length := by
  unfold escChar
  split_ifs <;> simp

theorem parseStr_escape : ∀ (s : List Char) (f : ℕ) (rest : List Char),
    (escapeChars s).length < f →
    parseStr f (escapeChars s ++ '"' :: rest) = some (s, rest) := by
  intro s
  induction s with
  | nil =>
    intro f rest hf
    cases f with
    | zero => simp [escapeChars] at hf
    | succ f => simp [escapeChars, parseStr]
  | cons c cs ih =>
    intro f rest hf
    cases f with
    | zero => simp [escapeChars] at hf
    | succ f =>
      have hcs : (escapeChars cs).length < f := by
        have h1 := escChar_len_pos c
        simp only [escapeChars, List.length_append] at hf
        omega
      have hih := ih f rest hcs
      rw [show escapeChars (c :: cs) = escChar c ++ escapeChars cs from rfl,
        List.append_assoc]
      by_cases h1 : c = '"'
      · subst h1; simp [escChar, parseStr, escVal?, hih]
      by_cases h2 : c = '\\'
      · subst h2; simp [escChar, parseStr, escVal?, hih]
      by_cases h3 : c = '\n'
      · subst h3; simp [escChar, parseStr, escVal?, hih]
      by_cases h4 : c = '\r'
      · subst h4; simp [escChar, parseStr, escVal?, hih]
      by_cases h5 : c = '\t'
      · subst h5; simp [escChar, parseStr, escVal?, hih]
      by_cases h6 : c = Char.ofNat 8
      · subst h6; simp [escChar, parseStr, escVal?, hih]
      by_cases h7 : c = Char.ofNat 12
      · subst h7; simp [escChar, parseStr, escVal?, hih]
      by_cases h8 : c.toNat < 32
      · have h16a : c.toNat / 16 < 16 := by omega
        have h16b : c.toNat % 16 < 16 := Nat.mod_lt _ (by omega)
        have hchar : Char.ofNat ((((0 * 16 + 0) * 16 + c.toNat / 16) * 16 + c.toNat % 16)) = c := by
          have hdm : (((0 * 16 + 0) * 16 + c.toNat / 16) * 16 + c.toNat % 16) = c.toNat := by
            omega
          rw [hdm, Char.ofNat_toNat]
        simp [escChar, h1, h2, h3, h4, h5, h6, h7, h8, parseStr,
          hexVal?_hexDigitCh _ h16a, hexVal?_hexDigitCh _ h16b, hchar, hih,
          show hexVal? '0' = some 0 from by decide]
        have hdm2 : c.toNat / 16 * 16 + c.toNat % 16 = c.toNat := by omega
        rw [hdm2, Char.ofNat_toNat]
      · simp [escChar, h1, h2, h3, h4, h5, h6, h7, h8, parseStr, hih]

/-! ### Whitespace and head-character lemmas for the round trip -/

theorem skipWs_not_ws {c : Char} (h : isJWs c = false) (l : List Char) :
    skipWs (c :: l) = c :: l := by simp [skipWs, h]

theorem skipWs_ws_append : ∀ (w : List Char), (∀ c ∈ w, isJWs c = true) →
    ∀ l : List Char, skipWs (w ++ l) = skipWs l
  | [], _, _ => rfl
  | c :: cs, h, l => by
    simp only [List.cons_append, skipWs, h c (List.mem_cons_self c cs), if_true]
    exact skipWs_ws_append cs (fun d hd => h d (List.mem_cons_of_mem c hd)) l

theorem nlIndent_ws (lvl : ℕ) : ∀ c ∈ nlIndent lvl, isJWs c = true := by
  intro c hc
  simp only [nlIndent, List.mem_cons, List.mem_replicate] at hc
  rcases hc with rfl | ⟨-, rfl⟩ <;> decide

theorem skipWs_nlIndent (lvl : ℕ) (l : List Char) :
    skipWs (nlIndent lvl ++ l) = skipWs l := skipWs_ws_append _ (nlIndent_ws lvl) l

theorem nlIndent_length (lvl : ℕ) : (nlIndent lvl).length = 1 + 2 * lvl := by
  simp [nlIndent]
  omega

theorem parseVal_lead_ws : ∀ (w : List Char), (∀ c ∈ w, isJWs c = true) →
    ∀ (f : ℕ) (l : List Char), parseVal f (w ++ l) = parseVal f l := by
  intro w hw f l
  cases f with
  | zero => rfl
  | succ f => rw [parseVal, parseVal, skipWs_ws_append w hw]

theorem printNum_head (q : ℚ) : ∃ c cs, printNum q = c :: cs ∧ isJWs c = false ∧
    c ≠ 'n' ∧ c ≠ 't' ∧ c ≠ 'f' ∧ c ≠ '"' ∧ c ≠ '[' ∧ c ≠ lBrace ∧ c ≠ ']' ∧
    c ≠ ',' ∧ c ≠ rBrace := by
  by_cases hq : q < 0
  · refine ⟨'-', printNumBody (q.num.natAbs * (10 ^ decExp q.den / q.den)) (decExp q.den),
      by simp [printNum, hq], ?_, ?_, ?_, ?_, ?_, ?_, ?_, ?_, ?_, ?_⟩ <;> decide
  · obtain ⟨r, ds, hr, hb⟩ :=
      printNumBody_head (q.num.natAbs * (10 ^ decExp q.den / q.den)) (decExp q.den)
    obtain ⟨hdig, -, hws⟩ := digit_char_facts r hr
    refine ⟨Char.ofNat (48 + r), ds, by simp [printNum, hq, hb], hws, ?_, ?_, ?_, ?_,
      ?_, ?_, ?_, ?_, ?_⟩ <;>
      exact digit_ne _ hdig _ (by decide)

theorem printVal_head (lvl : ℕ) (v : JVal) :
    ∃ c cs, printVal lvl v = c :: cs ∧ isJWs c = false ∧ c ≠ ']' ∧ c ≠ ',' ∧
      c ≠ rBrace := by
  cases v with
  | null =>
    exact ⟨'n', ['u', 'l', 'l'], by simp [printVal], by decide, by decide, by decide,
      by decide⟩
  | bool b =>
    cases b with
    | true =>
      exact ⟨'t', ['r', 'u', 'e'], by simp [printVal], by decide, by decide, by decide,
        by decide⟩
    | false =>
      exact ⟨'f', ['a', 'l', 's', 'e'], by simp [printVal], by decide, by decide,
        by decide, by decide⟩
  | num q =>
    obtain ⟨c, cs, hev, hws, -, -, -, -, -, -, h1, h2, h3⟩ := printNum_head q
    exact ⟨c, cs, by simp [printVal, hev], hws, h1, h2, h3⟩
  | str s =>
    exact ⟨'"', escapeChars s.data ++ ['"'], by simp [printVal], by decide, by decide,
      by decide, by decide⟩
  | arr a =>
    cases a with
    | nil =>
      exact ⟨'[', [']'], by simp [printVal], by decide, by decide, by decide, by decide⟩
    | cons v vs =>
      exact ⟨'[', nlIndent (lvl + 1) ++ printVal (lvl + 1) v ++
        printArrTail (lvl + 1) vs ++ nlIndent lvl ++ [']'], by simp [printVal],
        by decide, by decide, by decide, by decide⟩
  | obj o =>
    cases o with
    | nil =>
      exact ⟨lBrace, [rBrace], by simp [printVal], by decide, by decide, by decide,
        by decide⟩
    | cons k v ms =>
      exact ⟨lBrace, nlIndent (lvl + 1) ++ printMember (lvl + 1) k v ++
        printObjTail (lvl + 1) ms ++ nlIndent lvl ++ [rBrace], by simp [printVal],
        by decide, by decide, by decide, by decide⟩

theorem arrTail_boundary (lvl lvl' : ℕ) (a : JArr) (rest : List Char) :
    numBoundary (printArrTail lvl a ++ (nlIndent lvl' ++ (']' :: rest))) := by
  cases a with
  | nil =>
    simp only [printArrTail, List.nil_append, nlIndent, List.cons_append]
    exact ⟨by decide, by decide, by decide, by decide⟩
  | cons v vs =>
    simp only [printArrTail, List.cons_append]
    exact ⟨by decide, by decide, by decide, by decide⟩

theorem objTail_boundary (lvl lvl' : ℕ) (o : JObj) (rest : List Char) :
    numBoundary (printObjTail lvl o ++ (nlIndent lvl' ++ (rBrace :: rest))) := by
  cases o with
  | nil =>
    simp only [printObjTail, List.nil_append, nlIndent, List.cons_append]
    exact ⟨by decide, by decide, by decide, by decide⟩
  | cons k v ms =>
    simp only [printObjTail, List.cons_append]
    exact ⟨by decide, by decide, by decide, by decide⟩

/-! ### The parser inverts the serializer -/

set_option maxHeartbeats 1000000 in
mutual
theorem parse_print_V (v : JVal) (f lvl : ℕ) (rest : List Char) (hdec : DecV v)
    (hf : (printVal lvl v ++ rest).length < f) (hrest : numBoundary rest) :
    parseVal f (printVal lvl v ++ rest) = some (v, rest) := by
  cases f with
  | zero => exact absurd hf (Nat.not_lt_zero _)
  | succ f =>
    cases v with
    | null =>
      rw [show printVal lvl JVal.null = ['n', 'u', 'l', 'l'] from by simp [printVal]]
      rw [parseVal]
      simp only [List.cons_append, skipWs_not_ws (show isJWs 'n' = false from by decide)]
      simp
    | bool b =>
      cases b with
      | true =>
        rw [show printVal lvl (JVal.bool true) = ['t', 'r', 'u', 'e'] from by
          simp [printVal]]
        rw [parseVal]
        simp only [List.cons_append, skipWs_not_ws (show isJWs 't' = false from by decide)]
        simp
      | false =>
        rw [show printVal lvl (JVal.bool false) = ['f', 'a', 'l', 's', 'e'] from by
          simp [printVal]]
        rw [parseVal]
        simp only [List.cons_append, skipWs_not_ws (show isJWs 'f' = false from by decide)]
        simp
    | num q =>
      simp only [DecV] at hdec
      obtain ⟨c, cs, hev, hws, hn, ht, hf2, hq2, hbr2, hbr3, -, -, -⟩ := printNum_head q
      rw [show printVal lvl (JVal.num q) = printNum q from by simp [printVal], hev]
      rw [parseVal]
      simp only [List.cons_append, skipWs_not_ws hws]
      simp only [hn, ht, hf2, hq2, hbr2, hbr3, if_false, ite_false]
      rw [show c :: (cs ++ rest) = printNum q ++ rest from by rw [hev]; simp]
      rw [parseNum_printNum q hdec rest hrest]
    | str s =>
      have hp : printVal lvl (JVal.str s) = '"' :: (escapeChars s.data ++ ['"']) := by
        simp [printVal]
      rw [hp] at hf ⊢
      simp only [List.length_cons, List.length_append, List.length_nil] at hf
      rw [parseVal]
      simp only [List.cons_append, skipWs_not_ws (show isJWs '"' = false from by decide)]
      simp only [show ('"' : Char) ≠ 'n' from by decide, show ('"' : Char) ≠ 't' from by
        decide, show ('"' : Char) ≠ 'f' from by decide, if_false, ite_false, if_pos rfl,
        eq_self_iff_true, if_true]
      rw [show (escapeChars s.data ++ ['"']) ++ rest = escapeChars s.data ++ '"' :: rest
        from by simp]
      rw [parseStr_escape s.data f rest (by omega)]
    | arr a =>
      cases a with
      | nil =>
        have hp : printVal lvl (JVal.arr JArr.nil) = ['[', ']'] := by simp [printVal]
        rw [hp] at hf ⊢
        simp only [List.length_cons, List.length_append] at hf
        rw [parseVal]
        simp only [List.cons_append,
          skipWs_not_ws (show isJWs '[' = false from by decide)]
        simp only [show ('[' : Char) ≠ 'n' from by decide, show ('[' : Char) ≠ 't' from by
          decide, show ('[' : Char) ≠ 'f' from by decide,
          show ('[' : Char) ≠ '"' from by decide, if_false, ite_false, eq_self_iff_true,
          if_true]
        cases f with
        | zero => omega
        | succ f2 =>
          rw [parseArr]
          rw [skipWs_not_ws (show isJWs ']' = false from by decide)]
          simp
      | cons v vs =>
        simp only [DecV, DecA] at hdec
        obtain ⟨hdv, hdvs⟩ := hdec
        have hp : printVal lvl (JVal.arr (JArr.cons v vs)) =
            '[' :: (nlIndent (lvl + 1) ++ printVal (lvl + 1) v ++
              printArrTail (lvl + 1) vs ++ nlIndent lvl ++ [']']) := by
          simp [printVal]
        rw [hp] at hf ⊢
        simp only [List.cons_append, List.append_assoc, List.nil_append] at hf ⊢
        simp only [List.length_cons, List.length_append, nlIndent_length] at hf
        rw [parseVal]
        rw [skipWs_not_ws (show isJWs '[' = false from by decide)]
        simp only [show ('[' : Char) ≠ 'n' from by decide, show ('[' : Char) ≠ 't' from by
          decide, show ('[' : Char) ≠ 'f' from by decide,
          show ('[' : Char) ≠ '"' from by decide, if_false, ite_false, eq_self_iff_true,
          if_true]
        cases f with
        | zero => omega
        | succ f2 =>
          rw [parseArr]
          obtain ⟨c0, cs0, hc0, hc0ws, hc0br, -, -⟩ := printVal_head (lvl + 1) v
          rw [show skipWs (nlIndent (lvl + 1) ++ (printVal (lvl + 1) v ++
              (printArrTail (lvl + 1) vs ++ (nlIndent lvl ++ (']' :: rest))))) =
              c0 :: (cs0 ++ (printArrTail (lvl + 1) vs ++ (nlIndent lvl ++ (']' :: rest))))
            from by rw [skipWs_nlIndent, hc0, List.cons_append, skipWs_not_ws hc0ws]]
          simp only [hc0br, if_false, ite_false]
          rw [show c0 :: (cs0 ++ (printArrTail (lvl + 1) vs ++
              (nlIndent lvl ++ (']' :: rest)))) = printVal (lvl + 1) v ++
              (printArrTail (lvl + 1) vs ++ (nlIndent lvl ++ (']' :: rest)))
            from by rw [hc0]; simp]
          have hV := parse_print_V v f2 (lvl + 1)
            (printArrTail (lvl + 1) vs ++ (nlIndent lvl ++ (']' :: rest))) hdv
            (by simp only [List.length_append, List.length_cons, nlIndent_length]; omega)
            (arrTail_boundary (lvl + 1) lvl vs rest)
          have hAT := parse_print_AT vs f2 (lvl + 1) lvl rest hdvs
            (by simp only [List.length_append, List.length_cons, nlIndent_length]; omega)
          rw [hV]
          simp [hAT]
    | obj o =>
      cases o with
      | nil =>
        have hp : printVal lvl (JVal.obj JObj.nil) = [lBrace, rBrace] := by simp [printVal]
        rw [hp] at hf ⊢
        simp only [List.length_cons, List.length_append] at hf
        rw [parseVal]
        simp only [List.cons_append,
          skipWs_not_ws (show isJWs lBrace = false from by decide)]
        simp only [show lBrace ≠ 'n' from by decide, show lBrace ≠ 't' from by decide,
          show lBrace ≠ 'f' from by decide, show lBrace ≠ '"' from by decide,
          show lBrace ≠ '[' from by decide, if_false, ite_false, eq_self_iff_true,
          if_true]
        cases f with
        | zero => omega
        | succ f2 =>
          rw [parseObj]
          rw [skipWs_not_ws (show isJWs rBrace = false from by decide)]
          simp
      | cons k v ms =>
        simp only [DecV, DecO] at hdec
        obtain ⟨hdv, hdms⟩ := hdec
        have hp : printVal lvl (JVal.obj (JObj.cons k v ms)) =
            lBrace :: (nlIndent (lvl + 1) ++ printMember (lvl + 1) k v ++
              printObjTail (lvl + 1) ms ++ nlIndent lvl ++ [rBrace]) := by
          simp [printVal]
        rw [hp] at hf ⊢
        simp only [List.cons_append, List.append_assoc, List.nil_append] at hf ⊢
        simp only [List.length_cons, List.length_append, nlIndent_length] at hf
        rw [parseVal]
        rw [skipWs_not_ws (show isJWs lBrace = false from by decide)]
        simp only [show lBrace ≠ 'n' from by decide, show lBrace ≠ 't' from by decide,
          show lBrace ≠ 'f' from by decide, show lBrace ≠ '"' from by decide,
          show lBrace ≠ '[' from by decide, if_false, ite_false, eq_self_iff_true,
          if_true]
        cases f with
        | zero => omega
        | succ f2 =>
          rw [parseObj]
          rw [show printMember (lvl + 1) k v = '"' :: (escapeChars k.data ++
              ('"' :: ':' :: ' ' :: printVal (lvl + 1) v)) from by simp [printMember]]
          rw [show skipWs (nlIndent (lvl + 1) ++ (('"' :: (escapeChars k.data ++
              ('"' :: ':' :: ' ' :: printVal (lvl + 1) v))) ++
              (printObjTail (lvl + 1) ms ++ (nlIndent lvl ++ (rBrace :: rest))))) =
              '"' :: ((escapeChars k.data ++ ('"' :: ':' :: ' ' :: printVal (lvl + 1) v)) ++
              (printObjTail (lvl + 1) ms ++ (nlIndent lvl ++ (rBrace :: rest))))
            from by
              rw [skipWs_nlIndent, List.cons_append,
                skipWs_not_ws (show isJWs '"' = false from by decide)]]
          rw [show (escapeChars k.data ++ ('"' :: ':' :: ' ' :: printVal (lvl + 1) v)) ++
              (printObjTail (lvl + 1) ms ++ (nlIndent lvl ++ (rBrace :: rest))) =
              escapeChars k.data ++ ('"' :: ':' :: ' ' ::
                (printVal (lvl + 1) v ++
                  (printObjTail (lvl + 1) ms ++ (nlIndent lvl ++ (rBrace :: rest)))))
            from by simp]
          have hpm : (printMember (lvl + 1) k v).length =
              (escapeChars k.data).length + (printVal (lvl + 1) v).length + 4 := by
            simp only [printMember, List.length_cons, List.length_append]
            omega
          have hM := parse_print_M k v f2 (lvl + 1)
            (printObjTail (lvl + 1) ms ++ (nlIndent lvl ++ (rBrace :: rest))) hdv
            (by simp only [List.length_append, List.length_cons, nlIndent_length]; omega)
            (objTail_boundary (lvl + 1) lvl ms rest)
          have hOT := parse_print_OT ms f2 (lvl + 1) lvl rest hdms
            (by simp only [List.length_append, List.length_cons, nlIndent_length]; omega)
          simp [hM, hOT, show ('"' : Char) ≠ rBrace from by decide]

theorem parse_print_AT (a : JArr) (f lvl lvl' : ℕ) (rest : List Char) (hdec : DecA a)
    (hf : (printArrTail lvl a ++ (nlIndent lvl' ++ (']' :: rest))).length < f) :
    parseArrTail f (printArrTail lvl a ++ (nlIndent lvl' ++ (']' :: rest))) =
      some (a, rest) := by
  cases f with
  | zero => exact absurd hf (Nat.not_lt_zero _)
  | succ f =>
    cases a with
    | nil =>
      rw [show printArrTail lvl JArr.nil = [] from by simp [printArrTail],
        List.nil_append]
      rw [parseArrTail]
      rw [skipWs_nlIndent, skipWs_not_ws (show isJWs ']' = false from by decide)]
      simp
    | cons v vs =>
      simp only [DecA] at hdec
      obtain ⟨hdv, hdvs⟩ := hdec
      rw [show printArrTail lvl (JArr.cons v vs) =
        ',' :: (nlIndent lvl ++ printVal lvl v ++ printArrTail lvl vs) from by
          simp [printArrTail]] at hf ⊢
      simp only [List.cons_append, List.append_assoc] at hf ⊢
      simp only [List.length_cons, List.length_append, nlIndent_length] at hf
      rw [parseArrTail]
      rw [skipWs_not_ws (show isJWs ',' = false from by decide)]
      simp only [show (',' : Char) ≠ ']' from by decide, if_false, ite_false,
        eq_self_iff_true, if_true]
      rw [parseVal_lead_ws (nlIndent lvl) (nlIndent_ws lvl) f]
      have hV := parse_print_V v f lvl
        (printArrTail lvl vs ++ (nlIndent lvl' ++ (']' :: rest))) hdv
        (by simp only [List.length_append, List.length_cons, nlIndent_length]; omega)
        (arrTail_boundary lvl lvl' vs rest)
      have hAT := parse_print_AT vs f lvl lvl' rest hdvs
        (by simp only [List.length_append, List.length_cons, nlIndent_length]; omega)
      rw [hV]
      simp [hAT]

theorem parse_print_M (k : String) (v : JVal) (f lvl : ℕ) (rest : List Char)
    (hdec : DecV v)
    (hf : (escapeChars k.data ++ ('"' :: ':' :: ' ' :: (printVal lvl v ++ rest))).length < f)
    (hrest : numBoundary rest) :
    parseMember f (escapeChars k.data ++ ('"' :: ':' :: ' ' :: (printVal lvl v ++ rest))) =
      some (k, v, rest) := by
  cases f with
  | zero => exact absurd hf (Nat.not_lt_zero _)
  | succ f =>
    simp only [List.length_append, List.length_cons] at hf
    rw [parseMember]
    rw [parseStr_escape k.data f (':' :: ' ' :: (printVal lvl v ++ rest)) (by omega)]
    have hws : parseVal f (' ' :: (printVal lvl v ++ rest)) =
        parseVal f (printVal lvl v ++ rest) := by
      simpa using parseVal_lead_ws [' '] (by decide) f (printVal lvl v ++ rest)
    have hV := parse_print_V v f lvl rest hdec
      (by simp only [List.length_append]; omega) hrest
    simp [skipWs_not_ws (show isJWs ':' = false from by decide), hws, hV]

theorem parse_print_OT (o : JObj) (f lvl lvl' : ℕ) (rest : List Char) (hdec : DecO o)
    (hf : (printObjTail lvl o ++ (nlIndent lvl' ++ (rBrace :: rest))).length < f) :
    parseObjTail f (printObjTail lvl o ++ (nlIndent lvl' ++ (rBrace :: rest))) =
      some (o, rest) := by
  cases f with
  | zero => exact absurd hf (Nat.not_lt_zero _)
  | succ f =>
    cases o with
    | nil =>
      rw [show printObjTail lvl JObj.nil = [] from by simp [printObjTail],
        List.nil_append]
      rw [parseObjTail]
      rw [skipWs_nlIndent, skipWs_not_ws (show isJWs rBrace = false from by decide)]
      simp
    | cons k v ms =>
      simp only [DecO] at hdec
      obtain ⟨hdv, hdms⟩ := hdec
      rw [show printObjTail lvl (JObj.cons k v ms) =
        ',' :: (nlIndent lvl ++ printMember lvl k v ++ printObjTail lvl ms) from by
          simp [printObjTail]] at hf ⊢
      simp only [List.cons_append, List.append_assoc] at hf ⊢
      simp only [List.length_cons, List.length_append, nlIndent_length] at hf
      rw [parseObjTail]
      rw [skipWs_not_ws (show isJWs ',' = false from by decide)]
      simp only [show (',' : Char) ≠ rBrace from by decide, if_false, ite_false,
        eq_self_iff_true, if_true]
      rw [show printMember lvl k v = '"' :: (escapeChars k.data ++
          ('"' :: ':' :: ' ' :: printVal lvl v)) from by simp [printMember]]
      rw [show skipWs (nlIndent lvl ++ (('"' :: (escapeChars k.data ++
          ('"' :: ':' :: ' ' :: printVal lvl v))) ++
          (printObjTail lvl ms ++ (nlIndent lvl' ++ (rBrace :: rest))))) =
          '"' :: ((escapeChars k.data ++ ('"' :: ':' :: ' ' :: printVal lvl v)) ++
          (printObjTail lvl ms ++ (nlIndent lvl' ++ (rBrace :: rest))))
        from by
          rw [skipWs_nlIndent, List.cons_append,
            skipWs_not_ws (show isJWs '"' = false from by decide)]]
      rw [show (escapeChars k.data ++ ('"' :: ':' :: ' ' :: printVal lvl v)) ++
          (printObjTail lvl ms ++ (nlIndent lvl' ++ (rBrace :: rest))) =
          escapeChars k.data ++ ('"' :: ':' :: ' ' ::
            (printVal lvl v ++ (printObjTail lvl ms ++ (nlIndent lvl' ++ (rBrace :: rest)))))
        from by simp]
      have hpm : (printMember lvl k v).length =
          (escapeChars k.data).length + (printVal lvl v).length + 4 := by
        simp only [printMember, List.length_cons, List.length_append]
        omega
      have hM := parse_print_M k v f lvl
        (printObjTail lvl ms ++ (nlIndent lvl' ++ (rBrace :: rest))) hdv
        (by simp only [List.length_append, List.length_cons, nlIndent_length]; omega)
        (objTail_boundary lvl lvl' ms rest)
      have hOT := parse_print_OT ms f lvl lvl' rest hdms
        (by simp only [List.length_append, List.length_cons, nlIndent_length]; omega)
      simp [hM, hOT, show ('"' : Char) ≠ rBrace from by decide]
end

theorem parseJson_printJson (v : JVal) (h : DecV v) :
    parseJson (printJson v) = some v := by
  unfold parseJson printJson
  have h1 := parse_print_V v ((printVal 0 v).length + 1) 0 [] h
    (by simp) trivial
  simp only [List.append_nil] at h1
  rw [show (String.mk (printVal 0 v)).data = printVal 0 v from rfl,
    show (String.mk (printVal 0 v)).length = (printVal 0 v).length from rfl, h1]
  rfl

/-! ### Properties of `pyRound` (banker's rounding) -/

theorem ratFloor_eq (q : ℚ) : ratFloor q = ⌊q⌋ := by
  rw [Rat.floor_def]
  rfl

theorem pyRound_props (q : ℚ) :
    |q - (pyRound q : ℚ)| ≤ 1 / 2 ∧
    (|q - (pyRound q : ℚ)| = 1 / 2 → Even (pyRound q)) ∧
    (∀ z : ℤ, |q - (pyRound q : ℚ)| ≤ |q - (z : ℚ)|) := by
  have hfl : ((⌊q⌋ : ℤ) : ℚ) ≤ q := Int.floor_le q
  have hfl1 : q < (⌊q⌋ : ℚ) + 1 := Int.lt_floor_add_one q
  unfold pyRound
  simp only [ratFloor_eq]
  by_cases h1 : q - ((⌊q⌋ : ℤ) : ℚ) < 1 / 2
  · rw [if_pos h1]
    refine ⟨?_, ?_, ?_⟩
    · rw [abs_of_nonneg (by linarith)]; linarith
    · intro h; rw [abs_of_nonneg (by linarith)] at h; linarith
    · intro z
      rcases le_or_lt z ⌊q⌋ with hz | hz
      · have hzq : (z : ℚ) ≤ ((⌊q⌋ : ℤ) : ℚ) := by exact_mod_cast hz
        calc |q - ((⌊q⌋ : ℤ) : ℚ)| = q - ⌊q⌋ := abs_of_nonneg (by linarith)
          _ ≤ q - z := by linarith
          _ ≤ |q - (z : ℚ)| := le_abs_self _
      · have hz1 : ((⌊q⌋ : ℤ) : ℚ) + 1 ≤ (z : ℚ) := by exact_mod_cast hz
        calc |q - ((⌊q⌋ : ℤ) : ℚ)| = q - ⌊q⌋ := abs_of_nonneg (by linarith)
          _ ≤ (z : ℚ) - q := by linarith
          _ ≤ |q - (z : ℚ)| := by rw [abs_sub_comm]; exact le_abs_self _
  · by_cases h2 : 1 / 2 < q - ((⌊q⌋ : ℤ) : ℚ)
    · rw [if_neg h1, if_pos h2]
      have hcast : ((⌊q⌋ + 1 : ℤ) : ℚ) = ((⌊q⌋ : ℤ) : ℚ) + 1 := by push_cast; ring
      refine ⟨?_, ?_, ?_⟩
      · rw [hcast, abs_of_nonpos (by linarith)]; linarith
      · intro h; rw [hcast, abs_of_nonpos (by linarith)] at h; linarith
      · intro z
        rcases le_or_lt z ⌊q⌋ with hz | hz
        · have hzq : (z : ℚ) ≤ ((⌊q⌋ : ℤ) : ℚ) := by exact_mod_cast hz
          calc |q - ((⌊q⌋ + 1 : ℤ) : ℚ)| = ((⌊q⌋ : ℤ) : ℚ) + 1 - q := by
                rw [hcast, abs_of_nonpos (by linarith)]; ring
            _ ≤ q - (z : ℚ) := by linarith
            _ ≤ |q - (z : ℚ)| := le_abs_self _
        · have hz1 : ((⌊q⌋ : ℤ) : ℚ) + 1 ≤ (z : ℚ) := by exact_mod_cast hz
          calc |q - ((⌊q⌋ + 1 : ℤ) : ℚ)| = ((⌊q⌋ : ℤ) : ℚ) + 1 - q := by
                rw [hcast, abs_of_nonpos (by linarith)]; ring
            _ ≤ (z : ℚ) - q := by linarith
            _ ≤ |q - (z : ℚ)| := by rw [abs_sub_comm]; exact le_abs_self _
    · have h3 : q - ((⌊q⌋ : ℤ) : ℚ) = 1 / 2 := by linarith
      rw [if_neg h1, if_neg h2]
      have hnear : ∀ w : ℤ, |q - (w : ℚ)| = 1 / 2 → ∀ z : ℤ, |q - (w : ℚ)| ≤ |q - (z : ℚ)| := by
        intro w hw z
        rcases le_or_lt z ⌊q⌋ with hz | hz
        · have hzq : (z : ℚ) ≤ ((⌊q⌋ : ℤ) : ℚ) := by exact_mod_cast hz
          calc |q - (w : ℚ)| = 1 / 2 := hw
            _ ≤ q - (z : ℚ) := by linarith
            _ ≤ |q - (z : ℚ)| := le_abs_self _
        · have hz1 : ((⌊q⌋ : ℤ) : ℚ) + 1 ≤ (z : ℚ) := by exact_mod_cast hz
          calc |q - (w : ℚ)| = 1 / 2 := hw
            _ ≤ (z : ℚ) - q := by linarith
            _ ≤ |q - (z : ℚ)| := by rw [abs_sub_comm]; exact le_abs_self _
      by_cases h4 : ⌊q⌋ % 2 = 0
      · rw [if_pos h4]
        have habs : |q - ((⌊q⌋ : ℤ) : ℚ)| = 1 / 2 := by
          rw [abs_of_nonneg (by linarith)]; linarith
        exact ⟨le_of_eq habs, fun _ => Int.even_iff.mpr h4, hnear _ habs⟩
      · rw [if_neg h4]
        have hcast : ((⌊q⌋ + 1 : ℤ) : ℚ) = ((⌊q⌋ : ℤ) : ℚ) + 1 := by push_cast; ring
        have habs : |q - ((⌊q⌋ + 1 : ℤ) : ℚ)| = 1 / 2 := by
          rw [hcast, abs_of_nonpos (by linarith)]; linarith
        exact ⟨le_of_eq habs,
          fun _ => Int.even_add_one.mpr (fun he => h4 (Int.even_iff.mp he)),
          hnear _ habs⟩

theorem safeInt_num (q : ℚ) : safeInt (JVal.num q) = some (pyRound q) := rfl

theorem safeFloat_num (q : ℚ) : safeFloat (JVal.num q) = some q := rfl

/-! ### Behavior of the normalizer on well-formed sections -/

theorem pyOr_arr (a : JArr) : pyOr (.arr a) (.arr .nil) = .arr a := by
  cases a <;> simp [pyOr, truthy]

theorem getSeq_obj (h : JObj) (key : String) :
    getSeq (.obj h) key =
      .ok (pyOr ((h.lookup? key).getD (JVal.arr .nil)) (JVal.arr .nil)) := by
  simp [getSeq, pyGetD]

theorem fieldAt_arr (conv : JVal → JVal) (xs : JArr) (i : ℕ) :
    fieldAt conv (.arr xs) i = .ok ((xs.get? i).elim JVal.null conv) := by
  unfold fieldAt
  simp only [pyLen, ok_bind]
  by_cases h : i < xs.length
  · obtain ⟨v, hv⟩ := JArr.get?_some_of_lt xs i h
    simp [h, pyIndex, hv]
  · simp [h, JArr.get?_none_of_le xs i (le_of_not_lt h), pure, Except.pure]

theorem hourlyRow_arr (ts temp feels pop wind wdir gust wcode : JArr) (i : ℕ) (t : JVal)
    (ht : ts.get? i = some t) :
    hourlyRow (.arr ts) (.arr temp) (.arr feels) (.arr pop) (.arr wind) (.arr wdir)
      (.arr gust) (.arr wcode) i =
      .ok (JVal.obj (hourlyRecord t temp feels pop wind wdir gust wcode i)) := by
  unfold hourlyRow
  simp [pyIndex, ht, fieldAt_arr, hourlyRecord]

theorem dailyRow_arr (ds tmax tmin dpop dcode : JArr) (i : ℕ) (d : JVal)
    (hd : ds.get? i = some d) :
    dailyRow (.arr ds) (.arr tmax) (.arr tmin) (.arr dpop) (.arr dcode) i =
      .ok (JVal.obj (dailyRecord d tmax tmin dpop dcode i)) := by
  unfold dailyRow
  simp [pyIndex, hd, fieldAt_arr, dailyRecord]

theorem buildRows_ok (mk : ℕ → Except String JVal) :
    ∀ (n i : ℕ), (∀ j, j < n → ∃ v, mk (i + j) = .ok v) →
      ∃ a : JArr, buildRows mk i n = .ok a ∧ a.length = n ∧
        ∀ j, j < n → ∃ v, mk (i + j) = .ok v ∧ a.get? j = some v
  | 0, i, _ => ⟨.nil, rfl, rfl, fun j hj => absurd hj (by omega)⟩
  | n + 1, i, hall => by
    obtain ⟨v, hv⟩ := hall 0 (by omega)
    have hv' : mk i = .ok v := by simpa using hv
    obtain ⟨a', ha', hlen, hget⟩ := buildRows_ok mk n (i + 1) (fun j hj => by
      have h := hall (j + 1) (by omega)
      simpa [show i + (j + 1) = i + 1 + j from by omega] using h)
    refine ⟨.cons v a', ?_, ?_, ?_⟩
    · simp only [buildRows]
      rw [hv']
      simp [ha']
    · simp [JArr.length, hlen]
    · intro j hj
      cases j with
      | zero => exact ⟨v, by simpa using hv', rfl⟩
      | succ j' =>
        obtain ⟨w, hw, hg⟩ := hget j' (by omega)
        exact ⟨w, by simpa [show i + (j' + 1) = i + 1 + j' from by omega] using hw,
          by simpa [JArr.get?] using hg⟩

theorem buildRows_all (mk : ℕ → Except String JVal) (P : JVal → Prop)
    (hmk : ∀ i v, mk i = .ok v → P v) :
    ∀ (n i : ℕ) (a : JArr), buildRows mk i n = .ok a →
      ∀ (j : ℕ) (r : JVal), a.get? j = some r → P r
  | 0, i, a, h => by
    simp only [buildRows] at h
    cases h
    intro j r hr
    simp [JArr.get?] at hr
  | n + 1, i, a, h => by
    simp only [buildRows] at h
    cases hmki : mk i with
    | error e => rw [hmki] at h; simp at h
    | ok v =>
      rw [hmki] at h
      simp only [ok_bind] at h
      cases hrec : buildRows mk (i + 1) n with
      | error e => rw [hrec] at h; simp at h
      | ok a' =>
        rw [hrec] at h
        simp only [ok_bind] at h
        cases h
        intro j r hr
        cases j with
        | zero =>
          simp only [JArr.get?] at hr
          cases hr
          exact hmk i v hmki
        | succ j' =>
          simp only [JArr.get?] at hr
          exact buildRows_all mk P hmk n (i + 1) a' hrec j' r hr

theorem buildCurrent_obj (r c : JObj) (hc : r.lookup? "current" = some (.obj c)) :
    buildCurrent (.obj r) = .ok (.obj (currentRecord c)) := by
  simp [buildCurrent, pyGetD, hc, pyOr_obj, currentRecord]

theorem buildCurrent_missing (r : JObj)
    (hc : r.lookup? "current" = none ∨
      ∃ v, r.lookup? "current" = some v ∧ truthy v = false) :
    buildCurrent (.obj r) = .ok (.obj nullCurrentRecord) := by
  rcases hc with hc | ⟨v, hc, hv⟩
  · simp [buildCurrent, pyGetD, hc, pyOr, truthy, safeFloat, safeInt, jOfFloat, jOfInt,
      JObj.lookup?, nullCurrentRecord]
  · simp [buildCurrent, pyGetD, hc, pyOr, hv, safeFloat, safeInt, jOfFloat, jOfInt,
      JObj.lookup?, nullCurrentRecord]

theorem buildHourly_arr (r h : JObj) (ts temp feels pop wind wdir gust wcode : JArr)
    (hh : r.lookup? "hourly" = some (.obj h))
    (hts : getSeq (.obj h) "time" = .ok (.arr ts))
    (h1 : getSeq (.obj h) "temperature_2m" = .ok (.arr temp))
    (h2 : getSeq (.obj h) "apparent_temperature" = .ok (.arr feels))
    (h3 : getSeq (.obj h) "precipitation_probability" = .ok (.arr pop))
    (h4 : getSeq (.obj h) "wind_speed_10m" = .ok (.arr wind))
    (h5 : getSeq (.obj h) "wind_direction_10m" = .ok (.arr wdir))
    (h6 : getSeq (.obj h) "wind_gusts_10m" = .ok (.arr gust))
    (h7 : getSeq (.obj h) "weather_code" = .ok (.arr wcode)) :
    ∃ rows : JArr, buildHourly (.obj r) = .ok rows ∧
      rows.length = min 24 ts.length ∧
      ∀ j, j < min 24 ts.length → ∃ t, ts.get? j = some t ∧
        rows.get? j = some (.obj (hourlyRecord t temp feels pop wind wdir gust wcode j)) := by
  have hall : ∀ j, j < min 24 ts.length →
      ∃ v, hourlyRow (.arr ts) (.arr temp) (.arr feels) (.arr pop) (.arr wind)
        (.arr wdir) (.arr gust) (.arr wcode) (0 + j) = .ok v := by
    intro j hj
    obtain ⟨t, ht⟩ := JArr.get?_some_of_lt ts j (lt_of_lt_of_le hj (min_le_right _ _))
    exact ⟨_, by simpa using hourlyRow_arr ts temp feels pop wind wdir gust wcode j t ht⟩
  obtain ⟨rows, hrows, hlen, hget⟩ :=
    buildRows_ok (hourlyRow (.arr ts) (.arr temp) (.arr feels) (.arr pop) (.arr wind)
      (.arr wdir) (.arr gust) (.arr wcode)) (min 24 ts.length) 0 hall
  refine ⟨rows, ?_, hlen, ?_⟩
  · simp only [buildHourly, pyGetD, hh, Option.getD_some, ok_bind, pyOr_obj, hts, h1, h2,
      h3, h4, h5, h6, h7, pyLen]
    exact hrows
  · intro j hj
    obtain ⟨t, ht⟩ := JArr.get?_some_of_lt ts j (lt_of_lt_of_le hj (min_le_right _ _))
    obtain ⟨v, hv, hg⟩ := hget j hj
    refine ⟨t, ht, ?_⟩
    have heq := hourlyRow_arr ts temp feels pop wind wdir gust wcode j t ht
    rw [show (0 + j) = j from by omega] at hv
    rw [heq] at hv
    cases hv
    exact hg

theorem buildDaily_arr (r d : JObj) (ds tmax tmin dpop dcode : JArr)
    (hh : r.lookup? "daily" = some (.obj d))
    (hds : getSeq (.obj d) "time" = .ok (.arr ds))
    (h1 : getSeq (.obj d) "temperature_2m_max" = .ok (.arr tmax))
    (h2 : getSeq (.obj d) "temperature_2m_min" = .ok (.arr tmin))
    (h3 : getSeq (.obj d) "precipitation_probability_max" = .ok (.arr dpop))
    (h4 : getSeq (.obj d) "weather_code" = .ok (.arr dcode)) :
    ∃ rows : JArr, buildDaily (.obj r) = .ok rows ∧
      rows.length = min 7 ds.length ∧
      ∀ j, j < min 7 ds.length → ∃ dd, ds.get? j = some dd ∧
        rows.get? j = some (.obj (dailyRecord dd tmax tmin dpop dcode j)) := by
  have hall : ∀ j, j < min 7 ds.length →
      ∃ v, dailyRow (.arr ds) (.arr tmax) (.arr tmin) (.arr dpop) (.arr dcode) (0 + j) =
        .ok v := by
    intro j hj
    obtain ⟨dd, hdd⟩ := JArr.get?_some_of_lt ds j (lt_of_lt_of_le hj (min_le_right _ _))
    exact ⟨_, by simpa using dailyRow_arr ds tmax tmin dpop dcode j dd hdd⟩
  obtain ⟨rows, hrows, hlen, hget⟩ :=
    buildRows_ok (dailyRow (.arr ds) (.arr tmax) (.arr tmin) (.arr dpop) (.arr dcode))
      (min 7 ds.length) 0 hall
  refine ⟨rows, ?_, hlen, ?_⟩
  · simp only [buildDaily, pyGetD, hh, Option.getD_some, ok_bind, pyOr_obj, hds, h1, h2,
      h3, h4, pyLen]
    exact hrows
  · intro j hj
    obtain ⟨dd, hdd⟩ := JArr.get?_some_of_lt ds j (lt_of_lt_of_le hj (min_le_right _ _))
    obtain ⟨v, hv, hg⟩ := hget j hj
    refine ⟨dd, hdd, ?_⟩
    have heq := dailyRow_arr ds tmax tmin dpop dcode j dd hdd
    rw [show (0 + j) = j from by omega] at hv
    rw [heq] at hv
    cases hv
    exact hg

theorem buildHourly_missing (r : JObj)
    (hc : r.lookup? "hourly" = none ∨
      ∃ v, r.lookup? "hourly" = some v ∧ truthy v = false) :
    buildHourly (.obj r) = .ok .nil := by
  rcases hc with hc | ⟨v, hc, hv⟩
  · simp [buildHourly, pyGetD, hc, pyOr, truthy, getSeq, JObj.lookup?, pyLen,
      JArr.length, buildRows]
  · simp [buildHourly, pyGetD, hc, pyOr, hv, getSeq, JObj.lookup?, pyLen,
      JArr.length, buildRows]

theorem buildDaily_missing (r : JObj)
    (hc : r.lookup? "daily" = none ∨
      ∃ v, r.lookup? "daily" = some v ∧ truthy v = false) :
    buildDaily (.obj r) = .ok .nil := by
  rcases hc with hc | ⟨v, hc, hv⟩
  · simp [buildDaily, pyGetD, hc, pyOr, truthy, getSeq, JObj.lookup?, pyLen,
      JArr.length, buildRows]
  · simp [buildDaily, pyGetD, hc, pyOr, hv, getSeq, JObj.lookup?, pyLen,
      JArr.length, buildRows]

theorem buildJson_parts (raw : JVal) (p : String) (la lo : ℚ) (tz now : String)
    (cur : JVal) (hr dr : JArr) (hc : buildCurrent raw = .ok cur)
    (hh : buildHourly raw = .ok hr) (hd : buildDaily raw = .ok dr) :
    buildJson raw p la lo tz now = .ok (JVal.obj
      (.cons "meta" (.obj (metaObj p la lo tz now))
        (.cons "current" cur
          (.cons "hourly" (.arr hr)
            (.cons "daily" (.arr dr) .nil))))) := by
  simp [buildJson, hc, hh, hd]

/-! ### `build_json` only produces exactly-representable numbers -/

theorem IsDecQ_intCast (z : ℤ) : IsDecQ (z : ℚ) := ⟨z, 0, by simp⟩

theorem IsDecQ_natCast (n : ℕ) : IsDecQ (n : ℚ) := ⟨n, 0, by simp⟩

theorem IsDecQ_neg {q : ℚ} (h : IsDecQ q) : IsDecQ (-q) := by
  obtain ⟨m, k, rfl⟩ := h
  exact ⟨-m, k, by push_cast; ring⟩

theorem IsDecQ_add {a b : ℚ} (ha : IsDecQ a) (hb : IsDecQ b) : IsDecQ (a + b) := by
  obtain ⟨m1, k1, rfl⟩ := ha
  obtain ⟨m2, k2, rfl⟩ := hb
  refine ⟨m1 * 10 ^ k2 + m2 * 10 ^ k1, k1 + k2, ?_⟩
  have h1 : ((10 : ℚ)) ^ k1 ≠ 0 := by positivity
  have h2 : ((10 : ℚ)) ^ k2 ≠ 0 := by positivity
  rw [div_add_div _ _ h1 h2, pow_add]
  congr 1
  push_cast
  ring

theorem IsDecQ_mul {a b : ℚ} (ha : IsDecQ a) (hb : IsDecQ b) : IsDecQ (a * b) := by
  obtain ⟨m1, k1, rfl⟩ := ha
  obtain ⟨m2, k2, rfl⟩ := hb
  refine ⟨m1 * m2, k1 + k2, ?_⟩
  rw [div_mul_div_comm, pow_add]
  congr 1
  push_cast
  ring

theorem IsDecQ_div_pow {a : ℚ} (ha : IsDecQ a) (k : ℕ) : IsDecQ (a / 10 ^ k) := by
  obtain ⟨m, k0, rfl⟩ := ha
  refine ⟨m, k0 + k, ?_⟩
  rw [pow_add, div_div]

theorem IsDecQ_zpow10 (z : ℤ) : IsDecQ ((10 : ℚ) ^ z) := by
  cases z with
  | ofNat n =>
    refine ⟨10 ^ n, 0, ?_⟩
    rw [show ((Int.ofNat n : ℤ) : ℤ) = (n : ℤ) from rfl]
    rw [zpow_natCast]
    push_cast
    simp
  | negSucc n =>
    refine ⟨1, n + 1, ?_⟩
    rw [zpow_negSucc]
    rw [eq_div_iff (by positivity)]
    rw [inv_mul_cancel₀ (by positivity)]
    norm_num

theorem IsDecQ_signApp {m : ℚ} (sgn : Bool) (h : IsDecQ m) : IsDecQ (signApp sgn m) := by
  unfold signApp
  split
  · exact h
  · exact IsDecQ_neg h

theorem readExpPy_dec (mag : ℚ) (sgn : Bool) (l : List Char) (q : ℚ)
    (h : readExpPy mag sgn l = some q) (hm : IsDecQ mag) : IsDecQ q := by
  cases l with
  | nil =>
    simp only [readExpPy, Option.some.injEq] at h
    rw [← h]
    exact IsDecQ_signApp sgn hm
  | cons e r =>
    simp only [readExpPy] at h
    split at h
    · split at h
      · simp at h
      · simp only [Option.some.injEq] at h
        rw [← h]
        exact IsDecQ_signApp sgn (IsDecQ_mul hm (IsDecQ_zpow10 _))
    · simp at h

theorem readExpJson_dec (mag : ℚ) (sgn : Bool) (l : List Char) (q : ℚ) (r : List Char)
    (h : readExpJson mag sgn l = some (q, r)) (hm : IsDecQ mag) : IsDecQ q := by
  cases l with
  | nil =>
    simp only [readExpJson, Option.some.injEq, Prod.mk.injEq] at h
    rw [← h.1]
    exact IsDecQ_signApp sgn hm
  | cons e rr =>
    simp only [readExpJson] at h
    split at h
    · split at h
      · simp at h
      · simp only [Option.some.injEq, Prod.mk.injEq] at h
        rw [← h.1]
        exact IsDecQ_signApp sgn (IsDecQ_mul hm (IsDecQ_zpow10 _))
    · simp only [Option.some.injEq, Prod.mk.injEq] at h
      rw [← h.1]
      exact IsDecQ_signApp sgn hm

theorem parseFloatChars_dec (l : List Char) (q : ℚ) (h : parseFloatChars l = some q) :
    IsDecQ q := by
  simp only [parseFloatChars] at h
  split at h
  · simp at h
  · exact readExpPy_dec _ _ _ _ h (IsDecQ_add (IsDecQ_natCast _)
      (IsDecQ_div_pow (IsDecQ_natCast _) _))

theorem parseNum_dec (l : List Char) (q : ℚ) (r : List Char)
    (h : parseNum l = some (q, r)) : IsDecQ q := by
  simp only [parseNum] at h
  split at h
  · simp at h
  · exact readExpJson_dec _ _ _ _ _ h (IsDecQ_add (IsDecQ_natCast _)
      (IsDecQ_div_pow (IsDecQ_natCast _) _))

theorem pyFloat?_dec (x : JVal) (q : ℚ) (hx : DecV x) (h : pyFloat? x = some q) :
    IsDecQ q := by
  cases x with
  | null => simp [pyFloat?] at h
  | bool b =>
    simp only [pyFloat?, Option.some.injEq] at h
    rw [← h]
    split
    · exact ⟨1, 0, by norm_num⟩
    · exact ⟨0, 0, by norm_num⟩
  | num q' =>
    simp only [pyFloat?, Option.some.injEq] at h
    rw [← h]
    simpa [DecV] using hx
  | str s => exact parseFloatChars_dec s.data q h
  | arr a => simp [pyFloat?] at h
  | obj o => simp [pyFloat?] at h

theorem safeFloat_dec (x : JVal) (q : ℚ) (hx : DecV x) (h : safeFloat x = some q) :
    IsDecQ q := by
  cases x <;> simp only [safeFloat] at h
  · simp at h
  all_goals exact pyFloat?_dec _ q hx h

theorem DecV_null : DecV JVal.null := by simp [DecV]

theorem DecV_jOfFloat (x : JVal) (hx : DecV x) : DecV (jOfFloat (safeFloat x)) := by
  cases hsf : safeFloat x with
  | none => simp [jOfFloat, DecV]
  | some q =>
    simp only [jOfFloat, DecV]
    exact safeFloat_dec x q hx hsf

theorem DecV_jOfInt (o : Option ℤ) : DecV (jOfInt o) := by
  cases o with
  | none => simp [jOfInt, DecV]
  | some z =>
    simp only [jOfInt, DecV]
    exact IsDecQ_intCast z

theorem DecV_fSafeFloat (x : JVal) (hx : DecV x) : DecV (fSafeFloat x) :=
  DecV_jOfFloat x hx

theorem DecV_fSafeInt (x : JVal) : DecV (fSafeInt x) := DecV_jOfInt _

theorem DecO_lookup : ∀ (o : JObj) (k : String) (v : JVal),
    DecO o → o.lookup? k = some v → DecV v
  | .nil, _, _, _, h => by simp [JObj.lookup?] at h
  | .cons k' v' rest, k, v, hd, h => by
    simp only [JObj.lookup?] at h
    have hd' : DecV v' ∧ DecO rest := by simpa [DecO] using hd
    by_cases he : k' = k
    · rw [if_pos he] at h
      cases h
      exact hd'.1
    · rw [if_neg he] at h
      exact DecO_lookup rest k v hd'.2 h

theorem DecA_get : ∀ (a : JArr) (i : ℕ) (v : JVal), DecA a → a.get? i = some v → DecV v
  | .nil, _, _, _, h => by simp [JArr.get?] at h
  | .cons w rest, 0, v, hd, h => by
    simp only [JArr.get?] at h
    cases h
    exact (by simpa [DecA] using hd : DecV w ∧ DecA rest).1
  | .cons w rest, i + 1, v, hd, h =>
    DecA_get rest i v (by simpa [DecA] using hd : DecV w ∧ DecA rest).2
      (by simpa [JArr.get?] using h)

theorem DecV_pyGetD (x : JVal) (k : String) (d v : JVal) (hx : DecV x) (hd : DecV d)
    (h : pyGetD x k d = .ok v) : DecV v := by
  cases x <;> simp only [pyGetD] at h
  case obj o =>
    cases hl : o.lookup? k with
    | none =>
      rw [hl] at h
      simp only [Option.getD_none, Except.ok.injEq] at h
      rw [← h]
      exact hd
    | some w =>
      rw [hl] at h
      simp only [Option.getD_some, Except.ok.injEq] at h
      rw [← h]
      exact DecO_lookup o k w (by simpa [DecV] using hx) hl
  all_goals simp_all

theorem DecV_pyOr (a b : JVal) (ha : DecV a) (hb : DecV b) : DecV (pyOr a b) := by
  unfold pyOr
  split
  · exact ha
  · exact hb

theorem DecV_pyIndex (x : JVal) (i : ℕ) (v : JVal) (hx : DecV x)
    (h : pyIndex x i = .ok v) : DecV v := by
  cases x <;> simp only [pyIndex] at h
  case arr a =>
    cases hg : a.get? i with
    | none => rw [hg] at h; simp at h
    | some w =>
      rw [hg] at h
      simp only [Except.ok.injEq] at h
      rw [← h]
      exact DecA_get a i w (by simpa [DecV] using hx) hg
  case str s =>
    cases hg : s.data.get? i with
    | none => rw [hg] at h; simp at h
    | some c =>
      rw [hg] at h
      simp only [Except.ok.injEq] at h
      rw [← h]
      simp [DecV]
  all_goals simp_all

theorem DecV_getSeq (sec : JVal) (key : String) (w : JVal) (hs : DecV sec)
    (h : getSeq sec key = .ok w) : DecV w := by
  unfold getSeq at h
  cases hg : pyGetD sec key (JVal.arr .nil) with
  | error e => rw [hg] at h; simp [pure, Except.pure] at h
  | ok v =>
    rw [hg] at h
    simp only [ok_bind, pure, Except.pure, Except.ok.injEq] at h
    rw [← h]
    exact DecV_pyOr v _ (DecV_pyGetD sec key _ v hs (by simp [DecV, DecA]) hg)
      (by simp [DecV, DecA])

theorem DecV_fieldAt (conv : JVal → JVal) (xs : JVal) (i : ℕ) (w : JVal)
    (hxs : DecV xs) (hconv : ∀ x, DecV x → DecV (conv x))
    (h : fieldAt conv xs i = .ok w) : DecV w := by
  unfold fieldAt at h
  cases hl : pyLen xs with
  | error e => rw [hl] at h; simp at h
  | ok n =>
    rw [hl] at h
    simp only [ok_bind] at h
    split at h
    · cases hidx : pyIndex xs i with
      | error e => rw [hidx] at h; simp at h
      | ok x =>
        rw [hidx] at h
        simp only [ok_bind, pure, Except.pure, Except.ok.injEq] at h
        rw [← h]
        exact hconv x (DecV_pyIndex xs i x hxs hidx)
    · simp only [pure, Except.pure, Except.ok.injEq] at h
      rw [← h]
      exact DecV_null

theorem DecA_of_all : ∀ a : JArr, (∀ j r, a.get? j = some r → DecV r) → DecA a
  | .nil, _ => by simp [DecA]
  | .cons v rest, h => by
    simp only [DecA]
    exact ⟨h 0 v rfl, DecA_of_all rest (fun j r hr => h (j + 1) r (by simpa [JArr.get?]))⟩

theorem DecV_hourlyRow (times temp feels pop wind wdir gust wcode : JVal) (i : ℕ)
    (w : JVal) (ht : DecV times) (h1 : DecV temp) (h2 : DecV feels) (h3 : DecV pop)
    (h4 : DecV wind) (h5 : DecV wdir) (h6 : DecV gust) (h7 : DecV wcode)
    (h : hourlyRow times temp feels pop wind wdir gust wcode i = .ok w) : DecV w := by
  unfold hourlyRow at h
  cases e0 : pyIndex times i with
  | error e => rw [e0] at h; simp at h
  | ok t =>
  rw [e0] at h; simp only [ok_bind] at h
  cases e1 : fieldAt fSafeFloat temp i with
  | error e => rw [e1] at h; simp at h
  | ok v1 =>
  rw [e1] at h; simp only [ok_bind] at h
  cases e2 : fieldAt fSafeFloat feels i with
  | error e => rw [e2] at h; simp at h
  | ok v2 =>
  rw [e2] at h; simp only [ok_bind] at h
  cases e3 : fieldAt fSafeInt pop i with
  | error e => rw [e3] at h; simp at h
  | ok v3 =>
  rw [e3] at h; simp only [ok_bind] at h
  cases e4 : fieldAt fSafeFloat wind i with
  | error e => rw [e4] at h; simp at h
  | ok v4 =>
  rw [e4] at h; simp only [ok_bind] at h
  cases e5 : fieldAt fSafeInt wdir i with
  | error e => rw [e5] at h; simp at h
  | ok v5 =>
  rw [e5] at h; simp only [ok_bind] at h
  cases e6 : fieldAt fSafeFloat gust i with
  | error e => rw [e6] at h; simp at h
  | ok v6 =>
  rw [e6] at h; simp only [ok_bind] at h
  cases e7 : fieldAt fSafeInt wcode i with
  | error e => rw [e7] at h; simp at h
  | ok v7 =>
  rw [e7] at h
  simp only [ok_bind, pure, Except.pure, Except.ok.injEq] at h
  rw [← h]
  simp only [DecV, DecO]
  exact ⟨DecV_pyIndex times i t ht e0,
    DecV_fieldAt fSafeFloat temp i v1 h1 DecV_fSafeFloat e1,
    DecV_fieldAt fSafeFloat feels i v2 h2 DecV_fSafeFloat e2,
    DecV_fieldAt fSafeInt pop i v3 h3 (fun x _ => DecV_fSafeInt x) e3,
    DecV_fieldAt fSafeFloat wind i v4 h4 DecV_fSafeFloat e4,
    DecV_fieldAt fSafeInt wdir i v5 h5 (fun x _ => DecV_fSafeInt x) e5,
    DecV_fieldAt fSafeFloat gust i v6 h6 DecV_fSafeFloat e6,
    DecV_fieldAt fSafeInt wcode i v7 h7 (fun x _ => DecV_fSafeInt x) e7, trivial⟩

theorem DecV_dailyRow (dates tmax tmin dpop dcode : JVal) (i : ℕ) (w : JVal)
    (ht : DecV dates) (h1 : DecV tmax) (h2 : DecV tmin) (h3 : DecV dpop)
    (h4 : DecV dcode)
    (h : dailyRow dates tmax tmin dpop dcode i = .ok w) : DecV w := by
  unfold dailyRow at h
  cases e0 : pyIndex dates i with
  | error e => rw [e0] at h; simp at h
  | ok t =>
  rw [e0] at h; simp only [ok_bind] at h
  cases e1 : fieldAt fSafeFloat tmax i with
  | error e => rw [e1] at h; simp at h
  | ok v1 =>
  rw [e1] at h; simp only [ok_bind] at h
  cases e2 : fieldAt fSafeFloat tmin i with
  | error e => rw [e2] at h; simp at h
  | ok v2 =>
  rw [e2] at h; simp only [ok_bind] at h
  cases e3 : fieldAt fSafeInt dcode i with
  | error e => rw [e3] at h; simp at h
  | ok v3 =>
  rw [e3] at h; simp only [ok_bind] at h
  cases e4 : fieldAt fSafeInt dpop i with
  | error e => rw [e4] at h; simp at h
  | ok v4 =>
  rw [e4] at h
  simp only [ok_bind, pure, Except.pure, Except.ok.injEq] at h
  rw [← h]
  simp only [DecV, DecO]
  exact ⟨DecV_pyIndex dates i t ht e0,
    DecV_fieldAt fSafeFloat tmax i v1 h1 DecV_fSafeFloat e1,
    DecV_fieldAt fSafeFloat tmin i v2 h2 DecV_fSafeFloat e2,
    DecV_fieldAt fSafeInt dcode i v3 h4 (fun x _ => DecV_fSafeInt x) e3,
    DecV_fieldAt fSafeInt dpop i v4 h3 (fun x _ => DecV_fSafeInt x) e4, trivial⟩

theorem DecV_buildCurrent (raw : JVal) (doc : JVal) (hraw : DecV raw)
    (h : buildCurrent raw = .ok doc) : DecV doc := by
  have hnil : DecV (JVal.obj .nil) := by simp [DecV, DecO]
  have hnull : DecV JVal.null := DecV_null
  unfold buildCurrent at h
  cases e0 : pyGetD raw "current" (JVal.obj .nil) with
  | error e => rw [e0] at h; simp at h
  | ok cur0 =>
  rw [e0] at h; simp only [ok_bind] at h
  have hcur : DecV (pyOr cur0 (JVal.obj .nil)) :=
    DecV_pyOr cur0 _ (DecV_pyGetD raw "current" _ cur0 hraw hnil e0) hnil
  cases e1 : pyGetD (pyOr cur0 (JVal.obj .nil)) "temperature_2m" JVal.null with
  | error e => rw [e1] at h; simp at h
  | ok x1 =>
  rw [e1] at h; simp only [ok_bind] at h
  cases e2 : pyGetD (pyOr cur0 (JVal.obj .nil)) "apparent_temperature" JVal.null with
  | error e => rw [e2] at h; simp at h
  | ok x2 =>
  rw [e2] at h; simp only [ok_bind] at h
  cases e3 : pyGetD (pyOr cur0 (JVal.obj .nil)) "relative_humidity_2m" JVal.null with
  | error e => rw [e3] at h; simp at h
  | ok x3 =>
  rw [e3] at h; simp only [ok_bind] at h
  cases e4 : pyGetD (pyOr cur0 (JVal.obj .nil)) "wind_speed_10m" JVal.null with
  | error e => rw [e4] at h; simp at h
  | ok x4 =>
  rw [e4] at h; simp only [ok_bind] at h
  cases e5 : pyGetD (pyOr cur0 (JVal.obj .nil)) "wind_direction_10m" JVal.null with
  | error e => rw [e5] at h; simp at h
  | ok x5 =>
  rw [e5] at h; simp only [ok_bind] at h
  cases e6 : pyGetD (pyOr cur0 (JVal.obj .nil)) "wind_gusts_10m" JVal.null with
  | error e => rw [e6] at h; simp at h
  | ok x6 =>
  rw [e6] at h; simp only [ok_bind] at h
  cases e7 : pyGetD (pyOr cur0 (JVal.obj .nil)) "weather_code" JVal.null with
  | error e => rw [e7] at h; simp at h
  | ok x7 =>
  rw [e7] at h
  simp only [ok_bind, pure, Except.pure, Except.ok.injEq] at h
  rw [← h]
  simp only [DecV, DecO]
  exact ⟨DecV_jOfFloat x1 (DecV_pyGetD _ _ _ _ hcur hnull e1),
    DecV_jOfFloat x2 (DecV_pyGetD _ _ _ _ hcur hnull e2),
    DecV_jOfInt _,
    DecV_jOfFloat x4 (DecV_pyGetD _ _ _ _ hcur hnull e4),
    DecV_jOfInt _,
    DecV_jOfFloat x6 (DecV_pyGetD _ _ _ _ hcur hnull e6),
    DecV_jOfInt _, trivial⟩

theorem DecA_buildHourly (raw : JVal) (rows : JArr) (hraw : DecV raw)
    (h : buildHourly raw = .ok rows) : DecA rows := by
  have hnil : DecV (JVal.obj .nil) := by simp [DecV, DecO]
  unfold buildHourly at h
  cases e0 : pyGetD raw "hourly" (JVal.obj .nil) with
  | error e => rw [e0] at h; simp at h
  | ok h0 =>
  rw [e0] at h; simp only [ok_bind] at h
  have hho : DecV (pyOr h0 (JVal.obj .nil)) :=
    DecV_pyOr h0 _ (DecV_pyGetD raw "hourly" _ h0 hraw hnil e0) hnil
  cases e1 : getSeq (pyOr h0 (JVal.obj .nil)) "time" with
  | error e => rw [e1] at h; simp at h
  | ok times =>
  rw [e1] at h; simp only [ok_bind] at h
  cases e2 : getSeq (pyOr h0 (JVal.obj .nil)) "temperature_2m" with
  | error e => rw [e2] at h; simp at h
  | ok temp =>
  rw [e2] at h; simp only [ok_bind] at h
  cases e3 : getSeq (pyOr h0 (JVal.obj .nil)) "apparent_temperature" with
  | error e => rw [e3] at h; simp at h
  | ok feels =>
  rw [e3] at h; simp only [ok_bind] at h
  cases e4 : getSeq (pyOr h0 (JVal.obj .nil)) "precipitation_probability" with
  | error e => rw [e4] at h; simp at h
  | ok pop =>
  rw [e4] at h; simp only [ok_bind] at h
  cases e5 : getSeq (pyOr h0 (JVal.obj .nil)) "wind_speed_10m" with
  | error e => rw [e5] at h; simp at h
  | ok wind =>
  rw [e5] at h; simp only [ok_bind] at h
  cases e6 : getSeq (pyOr h0 (JVal.obj .nil)) "wind_direction_10m" with
  | error e => rw [e6] at h; simp at h
  | ok wdir =>
  rw [e6] at h; simp only [ok_bind] at h
  cases e7 : getSeq (pyOr h0 (JVal.obj .nil)) "wind_gusts_10m" with
  | error e => rw [e7] at h; simp at h
  | ok gust =>
  rw [e7] at h; simp only [ok_bind] at h
  cases e8 : getSeq (pyOr h0 (JVal.obj .nil)) "weather_code" with
  | error e => rw [e8] at h; simp at h
  | ok wcode =>
  rw [e8] at h; simp only [ok_bind] at h
  cases e9 : pyLen times with
  | error e => rw [e9] at h; simp at h
  | ok nt =>
  rw [e9] at h; simp only [ok_bind] at h
  have hdt := DecV_getSeq _ _ _ hho e1
  have hd1 := DecV_getSeq _ _ _ hho e2
  have hd2 := DecV_getSeq _ _ _ hho e3
  have hd3 := DecV_getSeq _ _ _ hho e4
  have hd4 := DecV_getSeq _ _ _ hho e5
  have hd5 := DecV_getSeq _ _ _ hho e6
  have hd6 := DecV_getSeq _ _ _ hho e7
  have hd7 := DecV_getSeq _ _ _ hho e8
  exact DecA_of_all rows
    (buildRows_all _ DecV
      (fun i v hv =>
        DecV_hourlyRow times temp feels pop wind wdir gust wcode i v hdt hd1 hd2 hd3 hd4
          hd5 hd6 hd7 hv)
      (min 24 nt) 0 rows h)

theorem DecA_buildDaily (raw : JVal) (rows : JArr) (hraw : DecV raw)
    (h : buildDaily raw = .ok rows) : DecA rows := by
  have hnil : DecV (JVal.obj .nil) := by simp [DecV, DecO]
  unfold buildDaily at h
  cases e0 : pyGetD raw "daily" (JVal.obj .nil) with
  | error e => rw [e0] at h; simp at h
  | ok d0 =>
  rw [e0] at h; simp only [ok_bind] at h
  have hdo : DecV (pyOr d0 (JVal.obj .nil)) :=
    DecV_pyOr d0 _ (DecV_pyGetD raw "daily" _ d0 hraw hnil e0) hnil
  cases e1 : getSeq (pyOr d0 (JVal.obj .nil)) "time" with
  | error e => rw [e1] at h; simp at h
  | ok dates =>
  rw [e1] at h; simp only [ok_bind] at h
  cases e2 : getSeq (pyOr d0 (JVal.obj .nil)) "temperature_2m_max" with
  | error e => rw [e2] at h; simp at h
  | ok tmax =>
  rw [e2] at h; simp only [ok_bind] at h
  cases e3 : getSeq (pyOr d0 (JVal.obj .nil)) "temperature_2m_min" with
  | error e => rw [e3] at h; simp at h
  | ok tmin =>
  rw [e3] at h; simp only [ok_bind] at h
  cases e4 : getSeq (pyOr d0 (JVal.obj .nil)) "precipitation_probability_max" with
  | error e => rw [e4] at h; simp at h
  | ok dpop =>
  rw [e4] at h; simp only [ok_bind] at h
  cases e5 : getSeq (pyOr d0 (JVal.obj .nil)) "weather_code" with
  | error e => rw [e5] at h; simp at h
  | ok dcode =>
  rw [e5] at h; simp only [ok_bind] at h
  cases e6 : pyLen dates with
  | error e => rw [e6] at h; simp at h
  | ok nd =>
  rw [e6] at h; simp only [ok_bind] at h
  have hdt := DecV_getSeq _ _ _ hdo e1
  have hd1 := DecV_getSeq _ _ _ hdo e2
  have hd2 := DecV_getSeq _ _ _ hdo e3
  have hd3 := DecV_getSeq _ _ _ hdo e4
  have hd4 := DecV_getSeq _ _ _ hdo e5
  exact DecA_of_all rows
    (buildRows_all _ DecV
      (fun i v hv => DecV_dailyRow dates tmax tmin dpop dcode i v hdt hd1 hd2 hd3 hd4 hv)
      (min 7 nd) 0 rows h)

theorem DecV_buildJson (raw : JVal) (p : String) (la lo : ℚ) (tz now : String)
    (doc : JVal) (hraw : DecV raw) (hla : IsDecQ la) (hlo : IsDecQ lo)
    (h : buildJson raw p la lo tz now = .ok doc) : DecV doc := by
  unfold buildJson at h
  cases e1 : buildCurrent raw with
  | error e => rw [e1] at h; simp at h
  | ok cur =>
  rw [e1] at h; simp only [ok_bind] at h
  cases e2 : buildHourly raw with
  | error e => rw [e2] at h; simp at h
  | ok hr =>
  rw [e2] at h; simp only [ok_bind] at h
  cases e3 : buildDaily raw with
  | error e => rw [e3] at h; simp at h
  | ok dr =>
  rw [e3] at h
  simp only [ok_bind, pure, Except.pure, Except.ok.injEq] at h
  rw [← h]
  simp only [DecV, DecO, metaObj]
  exact ⟨⟨trivial, hla, hlo, trivial, trivial, trivial, trivial⟩,
    DecV_buildCurrent raw cur hraw e1,
    DecA_buildHourly raw hr hraw e2,
    DecA_buildDaily raw dr hraw e3, trivial⟩

/-! ### Shape of the output records -/

theorem NumOrNull_jOfFloat (o : Option ℚ) : NumOrNull (jOfFloat o) := by
  cases o with
  | none => exact Or.inr rfl
  | some q => exact Or.inl ⟨q, rfl⟩

theorem NumOrNull_jOfInt (o : Option ℤ) : NumOrNull (jOfInt o) := by
  cases o with
  | none => exact Or.inr rfl
  | some z => exact Or.inl ⟨(z : ℚ), rfl⟩

theorem fieldAt_P (conv : JVal → JVal) (P : JVal → Prop) (hc : ∀ x, P (conv x))
    (hn : P JVal.null) (xs : JVal) (i : ℕ) (w : JVal)
    (h : fieldAt conv xs i = .ok w) : P w := by
  unfold fieldAt at h
  cases hl : pyLen xs with
  | error e => rw [hl] at h; simp at h
  | ok n =>
    rw [hl] at h
    simp only [ok_bind] at h
    split at h
    · cases hidx : pyIndex xs i with
      | error e => rw [hidx] at h; simp at h
      | ok x =>
        rw [hidx] at h
        simp only [ok_bind, pure, Except.pure, Except.ok.injEq] at h
        rw [← h]
        exact hc x
    · simp only [pure, Except.pure, Except.ok.injEq] at h
      rw [← h]
      exact hn

theorem hourlyRow_shape (times temp feels pop wind wdir gust wcode : JVal) (i : ℕ)
    (w : JVal) (h : hourlyRow times temp feels pop wind wdir gust wcode i = .ok w) :
    HourlyShape w := by
  have hfF : ∀ xs v, fieldAt fSafeFloat xs i = .ok v → NumOrNull v := fun xs v hv =>
    fieldAt_P fSafeFloat NumOrNull (fun x => NumOrNull_jOfFloat _) (Or.inr rfl) xs i v hv
  have hfI : ∀ xs v, fieldAt fSafeInt xs i = .ok v → NumOrNull v := fun xs v hv =>
    fieldAt_P fSafeInt NumOrNull (fun x => NumOrNull_jOfInt _) (Or.inr rfl) xs i v hv
  unfold hourlyRow at h
  cases e0 : pyIndex times i with
  | error e => rw [e0] at h; simp at h
  | ok t =>
  rw [e0] at h; simp only [ok_bind] at h
  cases e1 : fieldAt fSafeFloat temp i with
  | error e => rw [e1] at h; simp at h
  | ok v1 =>
  rw [e1] at h; simp only [ok_bind] at h
  cases e2 : fieldAt fSafeFloat feels i with
  | error e => rw [e2] at h; simp at h
  | ok v2 =>
  rw [e2] at h; simp only [ok_bind] at h
  cases e3 : fieldAt fSafeInt pop i with
  | error e => rw [e3] at h; simp at h
  | ok v3 =>
  rw [e3] at h; simp only [ok_bind] at h
  cases e4 : fieldAt fSafeFloat wind i with
  | error e => rw [e4] at h; simp at h
  | ok v4 =>
  rw [e4] at h; simp only [ok_bind] at h
  cases e5 : fieldAt fSafeInt wdir i with
  | error e => rw [e5] at h; simp at h
  | ok v5 =>
  rw [e5] at h; simp only [ok_bind] at h
  cases e6 : fieldAt fSafeFloat gust i with
  | error e => rw [e6] at h; simp at h
  | ok v6 =>
  rw [e6] at h; simp only [ok_bind] at h
  cases e7 : fieldAt fSafeInt wcode i with
  | error e => rw [e7] at h; simp at h
  | ok v7 =>
  rw [e7] at h
  simp only [ok_bind, pure, Except.pure, Except.ok.injEq] at h
  refine ⟨_, h.symm, ?_, ?_, ?_, ?_, ?_, ?_, ?_⟩
  · exact ⟨v1, by simp [JObj.lookup?], hfF _ _ e1⟩
  · exact ⟨v2, by simp [JObj.lookup?], hfF _ _ e2⟩
  · exact ⟨v3, by simp [JObj.lookup?], hfI _ _ e3⟩
  · exact ⟨v4, by simp [JObj.lookup?], hfF _ _ e4⟩
  · exact ⟨v5, by simp [JObj.lookup?], hfI _ _ e5⟩
  · exact ⟨v6, by simp [JObj.lookup?], hfF _ _ e6⟩
  · exact ⟨v7, by simp [JObj.lookup?], hfI _ _ e7⟩

theorem dailyRow_shape (dates tmax tmin dpop dcode : JVal) (i : ℕ) (w : JVal)
    (h : dailyRow dates tmax tmin dpop dcode i = .ok w) : DailyShape w := by
  have hfF : ∀ xs v, fieldAt fSafeFloat xs i = .ok v → NumOrNull v := fun xs v hv =>
    fieldAt_P fSafeFloat NumOrNull (fun x => NumOrNull_jOfFloat _) (Or.inr rfl) xs i v hv
  have hfI : ∀ xs v, fieldAt fSafeInt xs i = .ok v → NumOrNull v := fun xs v hv =>
    fieldAt_P fSafeInt NumOrNull (fun x => NumOrNull_jOfInt _) (Or.inr rfl) xs i v hv
  unfold dailyRow at h
  cases e0 : pyIndex dates i with
  | error e => rw [e0] at h; simp at h
  | ok t =>
  rw [e0] at h; simp only [ok_bind] at h
  cases e1 : fieldAt fSafeFloat tmax i with
  | error e => rw [e1] at h; simp at h
  | ok v1 =>
  rw [e1] at h; simp only [ok_bind] at h
  cases e2 : fieldAt fSafeFloat tmin i with
  | error e => rw [e2] at h; simp at h
  | ok v2 =>
  rw [e2] at h; simp only [ok_bind] at h
  cases e3 : fieldAt fSafeInt dcode i with
  | error e => rw [e3] at h; simp at h
  | ok v3 =>
  rw [e3] at h; simp only [ok_bind] at h
  cases e4 : fieldAt fSafeInt dpop i with
  | error e => rw [e4] at h; simp at h
  | ok v4 =>
  rw [e4] at h
  simp only [ok_bind, pure, Except.pure, Except.ok.injEq] at h
  refine ⟨_, h.symm, ?_, ?_, ?_, ?_⟩
  · exact ⟨v1, by simp [JObj.lookup?], hfF _ _ e1⟩
  · exact ⟨v2, by simp [JObj.lookup?], hfF _ _ e2⟩
  · exact ⟨v3, by simp [JObj.lookup?], hfI _ _ e3⟩
  · exact ⟨v4, by simp [JObj.lookup?], hfI _ _ e4⟩

theorem buildCurrent_shape (raw : JVal) (w : JVal) (h : buildCurrent raw = .ok w) :
    CurrentShape w := by
  unfold buildCurrent at h
  cases e0 : pyGetD raw "current" (JVal.obj .nil) with
  | error e => rw [e0] at h; simp at h
  | ok cur0 =>
  rw [e0] at h; simp only [ok_bind] at h
  cases e1 : pyGetD (pyOr cur0 (JVal.obj .nil)) "temperature_2m" JVal.null with
  | error e => rw [e1] at h; simp at h
  | ok x1 =>
  rw [e1] at h; simp only [ok_bind] at h
  cases e2 : pyGetD (pyOr cur0 (JVal.obj .nil)) "apparent_temperature" JVal.null with
  | error e => rw [e2] at h; simp at h
  | ok x2 =>
  rw [e2] at h; simp only [ok_bind] at h
  cases e3 : pyGetD (pyOr cur0 (JVal.obj .nil)) "relative_humidity_2m" JVal.null with
  | error e => rw [e3] at h; simp at h
  | ok x3 =>
  rw [e3] at h; simp only [ok_bind] at h
  cases e4 : pyGetD (pyOr cur0 (JVal.obj .nil)) "wind_speed_10m" JVal.null with
  | error e => rw [e4] at h; simp at h
  | ok x4 =>
  rw [e4] at h; simp only [ok_bind] at h
  cases e5 : pyGetD (pyOr cur0 (JVal.obj .nil)) "wind_direction_10m" JVal.null with
  | error e => rw [e5] at h; simp at h
  | ok x5 =>
  rw [e5] at h; simp only [ok_bind] at h
  cases e6 : pyGetD (pyOr cur0 (JVal.obj .nil)) "wind_gusts_10m" JVal.null with
  | error e => rw [e6] at h; simp at h
  | ok x6 =>
  rw [e6] at h; simp only [ok_bind] at h
  cases e7 : pyGetD (pyOr cur0 (JVal.obj .nil)) "weather_code" JVal.null with
  | error e => rw [e7] at h; simp at h
  | ok x7 =>
  rw [e7] at h
  simp only [ok_bind, pure, Except.pure, Except.ok.injEq] at h
  refine ⟨_, h.symm, ?_, ?_, ?_, ?_, ?_, ?_, ?_⟩
  · exact ⟨jOfFloat (safeFloat x1), by simp [JObj.lookup?], NumOrNull_jOfFloat _⟩
  · exact ⟨jOfFloat (safeFloat x2), by simp [JObj.lookup?], NumOrNull_jOfFloat _⟩
  · exact ⟨jOfInt (safeInt x3), by simp [JObj.lookup?], NumOrNull_jOfInt _⟩
  · exact ⟨jOfFloat (safeFloat x4), by simp [JObj.lookup?], NumOrNull_jOfFloat _⟩
  · exact ⟨jOfInt (safeInt x5), by simp [JObj.lookup?], NumOrNull_jOfInt _⟩
  · exact ⟨jOfFloat (safeFloat x6), by simp [JObj.lookup?], NumOrNull_jOfFloat _⟩
  · exact ⟨jOfInt (safeInt x7), by simp [JObj.lookup?], NumOrNull_jOfInt _⟩

theorem buildHourly_shape (raw : JVal) (rows : JArr) (h : buildHourly raw = .ok rows) :
    ∀ j row, rows.get? j = some row → HourlyShape row := by
  unfold buildHourly at h
  cases e0 : pyGetD raw "hourly" (JVal.obj .nil) with
  | error e => rw [e0] at h; simp at h
  | ok h0 =>
  rw [e0] at h; simp only [ok_bind] at h
  cases e1 : getSeq (pyOr h0 (JVal.obj .nil)) "time" with
  | error e => rw [e1] at h; simp at h
  | ok times =>
  rw [e1] at h; simp only [ok_bind] at h
  cases e2 : getSeq (pyOr h0 (JVal.obj .nil)) "temperature_2m" with
  | error e => rw [e2] at h; simp at h
  | ok temp =>
  rw [e2] at h; simp only [ok_bind] at h
  cases e3 : getSeq (pyOr h0 (JVal.obj .nil)) "apparent_temperature" with
  | error e => rw [e3] at h; simp at h
  | ok feels =>
  rw [e3] at h; simp only [ok_bind] at h
  cases e4 : getSeq (pyOr h0 (JVal.obj .nil)) "precipitation_probability" with
  | error e => rw [e4] at h; simp at h
  | ok pop =>
  rw [e4] at h; simp only [ok_bind] at h
  cases e5 : getSeq (pyOr h0 (JVal.obj .nil)) "wind_speed_10m" with
  | error e => rw [e5] at h; simp at h
  | ok wind =>
  rw [e5] at h; simp only [ok_bind] at h
  cases e6 : getSeq (pyOr h0 (JVal.obj .nil)) "wind_direction_10m" with
  | error e => rw [e6] at h; simp at h
  | ok wdir =>
  rw [e6] at h; simp only [ok_bind] at h
  cases e7 : getSeq (pyOr h0 (JVal.obj .nil)) "wind_gusts_10m" with
  | error e => rw [e7] at h; simp at h
  | ok gust =>
  rw [e7] at h; simp only [ok_bind] at h
  cases e8 : getSeq (pyOr h0 (JVal.obj .nil)) "weather_code" with
  | error e => rw [e8] at h; simp at h
  | ok wcode =>
  rw [e8] at h; simp only [ok_bind] at h
  cases e9 : pyLen times with
  | error e => rw [e9] at h; simp at h
  | ok nt =>
  rw [e9] at h; simp only [ok_bind] at h
  exact fun j row hr =>
    buildRows_all _ HourlyShape
      (fun i v hv => hourlyRow_shape times temp feels pop wind wdir gust wcode i v hv)
      (min 24 nt) 0 rows h j row hr

theorem buildDaily_shape (raw : JVal) (rows : JArr) (h : buildDaily raw = .ok rows) :
    ∀ j row, rows.get? j = some row → DailyShape row := by
  unfold buildDaily at h
  cases e0 : pyGetD raw "daily" (JVal.obj .nil) with
  | error e => rw [e0] at h; simp at h
  | ok d0 =>
  rw [e0] at h; simp only [ok_bind] at h
  cases e1 : getSeq (pyOr d0 (JVal.obj .nil)) "time" with
  | error e => rw [e1] at h; simp at h
  | ok dates =>
  rw [e1] at h; simp only [ok_bind] at h
  cases e2 : getSeq (pyOr d0 (JVal.obj .nil)) "temperature_2m_max" with
  | error e => rw [e2] at h; simp at h
  | ok tmax =>
  rw [e2] at h; simp only [ok_bind] at h
  cases e3 : getSeq (pyOr d0 (JVal.obj .nil)) "temperature_2m_min" with
  | error e => rw [e3] at h; simp at h
  | ok tmin =>
  rw [e3] at h; simp only [ok_bind] at h
  cases e4 : getSeq (pyOr d0 (JVal.obj .nil)) "precipitation_probability_max" with
  | error e => rw [e4] at h; simp at h
  | ok dpop =>
  rw [e4] at h; simp only [ok_bind] at h
  cases e5 : getSeq (pyOr d0 (JVal.obj .nil)) "weather_code" with
  | error e => rw [e5] at h; simp at h
  | ok dcode =>
  rw [e5] at h; simp only [ok_bind] at h
  cases e6 : pyLen dates with
  | error e => rw [e6] at h; simp at h
  | ok nd =>
  rw [e6] at h; simp only [ok_bind] at h
  exact fun j row hr =>
    buildRows_all _ DailyShape
      (fun i v hv => dailyRow_shape dates tmax tmin dpop dcode i v hv)
      (min 7 nd) 0 rows h j row hr

theorem buildJson_ok_shape (raw : JVal) (p : String) (la lo : ℚ) (tz now : String)
    (doc : JVal) (h : buildJson raw p la lo tz now = .ok doc) :
    ∃ (cur : JVal) (hr dr : JArr),
      buildCurrent raw = .ok cur ∧ buildHourly raw = .ok hr ∧ buildDaily raw = .ok dr ∧
      doc = JVal.obj
        (.cons "meta" (.obj (metaObj p la lo tz now))
          (.cons "current" cur
            (.cons "hourly" (.arr hr)
              (.cons "daily" (.arr dr) .nil)))) := by
  unfold buildJson at h
  cases e1 : buildCurrent raw with
  | error e => rw [e1] at h; simp at h
  | ok cur =>
  rw [e1] at h; simp only [ok_bind] at h
  cases e2 : buildHourly raw with
  | error e => rw [e2] at h; simp at h
  | ok hr =>
  rw [e2] at h; simp only [ok_bind] at h
  cases e3 : buildDaily raw with
  | error e => rw [e3] at h; simp at h
  | ok dr =>
  rw [e3] at h
  simp only [ok_bind, pure, Except.pure, Except.ok.injEq] at h
  exact ⟨cur, hr, dr, rfl, rfl, rfl, h.symm⟩

theorem buildJson_clock (raw : JVal) (p : String) (la lo : ℚ) (tz t1 t2 : String) :
    (buildJson raw p la lo tz t1).map stripGenerated =
      (buildJson raw p la lo tz t2).map stripGenerated := by
  unfold buildJson
  cases e1 : buildCurrent raw with
  | error e => rfl
  | ok cur =>
  simp only [ok_bind]
  cases e2 : buildHourly raw with
  | error e => rfl
  | ok hr =>
  simp only [ok_bind]
  cases e3 : buildDaily raw with
  | error e => rfl
  | ok dr =>
  simp only [ok_bind, pure, Except.pure]
  simp [Except.map, stripGenerated, stripGeneratedTop, metaObj, JObj.removeKey]

/-! ## The claims -/

/-- C1: when the raw response is an object whose `current` member is a mapping
`c`, `build_json` produces (without raising) a `current` record whose seven
fields are exactly the independently coerced raw fields, absent keys read as
`None`; every field of the record is a number or null, and the coercions never
raise: `_safe_float` and `_safe_int` return `None` on `None` input and on
conversion failure, numbers convert exactly, and `_safe_int` rounds before
casting. -/
theorem c1_current_fields (r c : JObj) (hc : r.lookup? "current" = some (JVal.obj c)) :
    ∃ rc : JObj, buildCurrent (JVal.obj r) = .ok (JVal.obj rc) ∧
      rc.lookup? "temperature_c" =
        some (jOfFloat (safeFloat ((c.lookup? "temperature_2m").getD JVal.null))) ∧
      rc.lookup? "feels_like_c" =
        some (jOfFloat (safeFloat ((c.lookup? "apparent_temperature").getD JVal.null))) ∧
      rc.lookup? "humidity_pct" =
        some (jOfInt (safeInt ((c.lookup? "relative_humidity_2m").getD JVal.null))) ∧
      rc.lookup? "wind_speed_kmh" =
        some (jOfFloat (safeFloat ((c.lookup? "wind_speed_10m").getD JVal.null))) ∧
      rc.lookup? "wind_dir_deg" =
        some (jOfInt (safeInt ((c.lookup? "wind_direction_10m").getD JVal.null))) ∧
      rc.lookup? "wind_gust_kmh" =
        some (jOfFloat (safeFloat ((c.lookup? "wind_gusts_10m").getD JVal.null))) ∧
      rc.lookup? "weather_code" =
        some (jOfInt (safeInt ((c.lookup? "weather_code").getD JVal.null))) ∧
      (∀ key v, rc.lookup? key = some v → NumOrNull v) ∧
      safeFloat JVal.null = none ∧ safeInt JVal.null = none ∧
      (∀ q : ℚ, safeFloat (JVal.num q) = some q) ∧
      (∀ q : ℚ, safeInt (JVal.num q) = some (pyRound q)) ∧
      (∀ x, pyFloat? x = none → safeFloat x = none ∧ safeInt x = none) := by
  refine ⟨currentRecord c, buildCurrent_obj r c hc,
    by simp [currentRecord, JObj.lookup?], by simp [currentRecord, JObj.lookup?],
    by simp [currentRecord, JObj.lookup?], by simp [currentRecord, JObj.lookup?],
    by simp [currentRecord, JObj.lookup?], by simp [currentRecord, JObj.lookup?],
    by simp [currentRecord, JObj.lookup?], ?_, rfl, rfl, fun q => rfl, fun q => rfl, ?_⟩
  · intro key v h
    simp only [currentRecord, JObj.lookup?] at h
    split at h
    · rw [← Option.some.inj h]; exact NumOrNull_jOfFloat _
    split at h
    · rw [← Option.some.inj h]; exact NumOrNull_jOfFloat _
    split at h
    · rw [← Option.some.inj h]; exact NumOrNull_jOfInt _
    split at h
    · rw [← Option.some.inj h]; exact NumOrNull_jOfFloat _
    split at h
    · rw [← Option.some.inj h]; exact NumOrNull_jOfInt _
    split at h
    · rw [← Option.some.inj h]; exact NumOrNull_jOfFloat _
    split at h
    · rw [← Option.some.inj h]; exact NumOrNull_jOfInt _
    exact Option.noConfusion h
  · intro x hpf
    have hsf : safeFloat x = none := by
      cases x with
      | null => rfl
      | bool b => exact hpf
      | num q => exact hpf
      | str s => exact hpf
      | arr a => exact hpf
      | obj o => exact hpf
    have hsi : safeInt x = none := by
      cases x with
      | null => rfl
      | bool b => simp [safeInt, hpf]
      | num q => simp [safeInt, hpf]
      | str s => simp [safeInt, hpf]
      | arr a => simp [safeInt, hpf]
      | obj o => simp [safeInt, hpf]
    exact ⟨hsf, hsi⟩

/-- Witness for C1 at a concrete raw response with an empty `current` mapping. -/
theorem c1_current_fields_witness :
    ∃ rc : JObj, buildCurrent (JVal.obj (JObj.cons "current" (JVal.obj JObj.nil) JObj.nil)) =
      .ok (JVal.obj rc) := by
  obtain ⟨rc, h1, -⟩ :=
    c1_current_fields (JObj.cons "current" (JVal.obj JObj.nil) JObj.nil) JObj.nil rfl
  exact ⟨rc, h1⟩

/-- C2: when the hourly and daily sections are mappings whose `time` members
(and measurement members, possibly defaulted) are arrays, the `hourly` output
list has length `min 24 (len times)` and the `daily` output list has length
`min 7 (len dates)`; and on a raw response with empty time arrays, `build_json`
returns empty `hourly` and `daily` lists without raising. -/
theorem c2_section_lengths (r h d : JObj)
    (ts temp feels pop wind wdir gust wcode ds tmax tmin dpop dcode : JArr)
    (hh : r.lookup? "hourly" = some (JVal.obj h))
    (hts : getSeq (JVal.obj h) "time" = .ok (.arr ts))
    (h1 : getSeq (JVal.obj h) "temperature_2m" = .ok (.arr temp))
    (h2 : getSeq (JVal.obj h) "apparent_temperature" = .ok (.arr feels))
    (h3 : getSeq (JVal.obj h) "precipitation_probability" = .ok (.arr pop))
    (h4 : getSeq (JVal.obj h) "wind_speed_10m" = .ok (.arr wind))
    (h5 : getSeq (JVal.obj h) "wind_direction_10m" = .ok (.arr wdir))
    (h6 : getSeq (JVal.obj h) "wind_gusts_10m" = .ok (.arr gust))
    (h7 : getSeq (JVal.obj h) "weather_code" = .ok (.arr wcode))
    (hd : r.lookup? "daily" = some (JVal.obj d))
    (hds : getSeq (JVal.obj d) "time" = .ok (.arr ds))
    (d1 : getSeq (JVal.obj d) "temperature_2m_max" = .ok (.arr tmax))
    (d2 : getSeq (JVal.obj d) "temperature_2m_min" = .ok (.arr tmin))
    (d3 : getSeq (JVal.obj d) "precipitation_probability_max" = .ok (.arr dpop))
    (d4 : getSeq (JVal.obj d) "weather_code" = .ok (.arr dcode)) :
    (∃ rows : JArr, buildHourly (JVal.obj r) = .ok rows ∧
      rows.length = min 24 ts.length) ∧
    (∃ rows : JArr, buildDaily (JVal.obj r) = .ok rows ∧
      rows.length = min 7 ds.length) ∧
    buildJson rawEmptyTimes "p" 0 0 "tz" "now" = .ok docEmpty := by
  obtain ⟨rows, hb, hlen, -⟩ :=
    buildHourly_arr r h ts temp feels pop wind wdir gust wcode hh hts h1 h2 h3 h4 h5 h6 h7
  obtain ⟨rows2, hb2, hlen2, -⟩ := buildDaily_arr r d ds tmax tmin dpop dcode hd hds d1 d2 d3 d4
  exact ⟨⟨rows, hb, hlen⟩, ⟨rows2, hb2, hlen2⟩, rfl⟩

/-- Witness for C2 at a concrete raw response with one hourly time entry and
no measurement arrays. -/
theorem c2_section_lengths_witness :
    ∃ rows : JArr, buildHourly (JVal.obj rawW) = .ok rows ∧
      rows.length = min 24 (JArr.cons (JVal.str "2026-01-28T17:00") JArr.nil).length := by
  obtain ⟨hH, -, -⟩ := c2_section_lengths rawW hourlyW dailyW
    (JArr.cons (JVal.str "2026-01-28T17:00") JArr.nil) .nil .nil .nil .nil .nil .nil .nil
    (JArr.cons (JVal.str "2026-01-28") JArr.nil) .nil .nil .nil .nil
    rfl rfl rfl rfl rfl rfl rfl rfl rfl rfl rfl rfl rfl rfl rfl
  exact hH

/-- C3: within the kept index range, every output record exists (no error and
no out-of-bounds access), and each measurement field whose own array is shorter
than the time array reads null at positions at or beyond that array length;
measurement arrays need not match the time array in length. -/
theorem c3_short_arrays (r h d : JObj)
    (ts temp feels pop wind wdir gust wcode ds tmax tmin dpop dcode : JArr)
    (hh : r.lookup? "hourly" = some (JVal.obj h))
    (hts : getSeq (JVal.obj h) "time" = .ok (.arr ts))
    (h1 : getSeq (JVal.obj h) "temperature_2m" = .ok (.arr temp))
    (h2 : getSeq (JVal.obj h) "apparent_temperature" = .ok (.arr feels))
    (h3 : getSeq (JVal.obj h) "precipitation_probability" = .ok (.arr pop))
    (h4 : getSeq (JVal.obj h) "wind_speed_10m" = .ok (.arr wind))
    (h5 : getSeq (JVal.obj h) "wind_direction_10m" = .ok (.arr wdir))
    (h6 : getSeq (JVal.obj h) "wind_gusts_10m" = .ok (.arr gust))
    (h7 : getSeq (JVal.obj h) "weather_code" = .ok (.arr wcode))
    (hd : r.lookup? "daily" = some (JVal.obj d))
    (hds : getSeq (JVal.obj d) "time" = .ok (.arr ds))
    (d1 : getSeq (JVal.obj d) "temperature_2m_max" = .ok (.arr tmax))
    (d2 : getSeq (JVal.obj d) "temperature_2m_min" = .ok (.arr tmin))
    (d3 : getSeq (JVal.obj d) "precipitation_probability_max" = .ok (.arr dpop))
    (d4 : getSeq (JVal.obj d) "weather_code" = .ok (.arr dcode)) :
    (∃ rows : JArr, buildHourly (JVal.obj r) = .ok rows ∧
      ∀ j, j < min 24 ts.length → ∃ (t : JVal) (rc : JObj), ts.get? j = some t ∧
        rows.get? j = some (JVal.obj rc) ∧
        (temp.length ≤ j → rc.lookup? "temperature_c" = some JVal.null) ∧
        (feels.length ≤ j → rc.lookup? "feels_like_c" = some JVal.null) ∧
        (pop.length ≤ j → rc.lookup? "precip_prob_pct" = some JVal.null) ∧
        (wind.length ≤ j → rc.lookup? "wind_speed_kmh" = some JVal.null) ∧
        (wdir.length ≤ j → rc.lookup? "wind_dir_deg" = some JVal.null) ∧
        (gust.length ≤ j → rc.lookup? "wind_gust_kmh" = some JVal.null) ∧
        (wcode.length ≤ j → rc.lookup? "weather_code" = some JVal.null)) ∧
    (∃ rows : JArr, buildDaily (JVal.obj r) = .ok rows ∧
      ∀ j, j < min 7 ds.length → ∃ (dd : JVal) (rc : JObj), ds.get? j = some dd ∧
        rows.get? j = some (JVal.obj rc) ∧
        (tmax.length ≤ j → rc.lookup? "tmax_c" = some JVal.null) ∧
        (tmin.length ≤ j → rc.lookup? "tmin_c" = some JVal.null) ∧
        (dcode.length ≤ j → rc.lookup? "weather_code" = some JVal.null) ∧
        (dpop.length ≤ j → rc.lookup? "precip_prob_pct" = some JVal.null)) := by
  constructor
  · obtain ⟨rows, hb, -, hget⟩ :=
      buildHourly_arr r h ts temp feels pop wind wdir gust wcode hh hts h1 h2 h3 h4 h5 h6 h7
    refine ⟨rows, hb, fun j hj => ?_⟩
    obtain ⟨t, ht, hr⟩ := hget j hj
    refine ⟨t, _, ht, hr, ?_, ?_, ?_, ?_, ?_, ?_, ?_⟩
    · intro hle
      simp [hourlyRecord, JObj.lookup?, JArr.get?_none_of_le temp j hle, Option.elim]
    · intro hle
      simp [hourlyRecord, JObj.lookup?, JArr.get?_none_of_le feels j hle, Option.elim]
    · intro hle
      simp [hourlyRecord, JObj.lookup?, JArr.get?_none_of_le pop j hle, Option.elim]
    · intro hle
      simp [hourlyRecord, JObj.lookup?, JArr.get?_none_of_le wind j hle, Option.elim]
    · intro hle
      simp [hourlyRecord, JObj.lookup?, JArr.get?_none_of_le wdir j hle, Option.elim]
    · intro hle
      simp [hourlyRecord, JObj.lookup?, JArr.get?_none_of_le gust j hle, Option.elim]
    · intro hle
      simp [hourlyRecord, JObj.lookup?, JArr.get?_none_of_le wcode j hle, Option.elim]
  · obtain ⟨rows, hb, -, hget⟩ := buildDaily_arr r d ds tmax tmin dpop dcode hd hds d1 d2 d3 d4
    refine ⟨rows, hb, fun j hj => ?_⟩
    obtain ⟨dd, hdd, hr⟩ := hget j hj
    refine ⟨dd, _, hdd, hr, ?_, ?_, ?_, ?_⟩
    · intro hle
      simp [dailyRecord, JObj.lookup?, JArr.get?_none_of_le tmax j hle, Option.elim]
    · intro hle
      simp [dailyRecord, JObj.lookup?, JArr.get?_none_of_le tmin j hle, Option.elim]
    · intro hle
      simp [dailyRecord, JObj.lookup?, JArr.get?_none_of_le dcode j hle, Option.elim]
    · intro hle
      simp [dailyRecord, JObj.lookup?, JArr.get?_none_of_le dpop j hle, Option.elim]

/-- Witness for C3: with one hourly time entry and all measurement arrays
absent (hence empty), the first record carries null measurements. -/
theorem c3_short_arrays_witness :
    ∃ (rows : JArr) (rc : JObj), buildHourly (JVal.obj rawW) = .ok rows ∧
      rows.get? 0 = some (JVal.obj rc) ∧ rc.lookup? "temperature_c" = some JVal.null := by
  obtain ⟨hH, -⟩ := c3_short_arrays rawW hourlyW dailyW
    (JArr.cons (JVal.str "2026-01-28T17:00") JArr.nil) .nil .nil .nil .nil .nil .nil .nil
    (JArr.cons (JVal.str "2026-01-28") JArr.nil) .nil .nil .nil .nil
    rfl rfl rfl rfl rfl rfl rfl rfl rfl rfl rfl rfl rfl rfl rfl
  obtain ⟨rows, hb, hall⟩ := hH
  obtain ⟨t, rc, -, hr, hnull, -, -, -, -, -, -⟩ := hall 0 (by decide)
  exact ⟨rows, rc, hb, hr, hnull (by decide)⟩

/-- C4 (counterexample): `_safe_int` does not round ties away from zero: on
the numeric value 1/2 it returns 0 (ties go to the even neighbor), while the
away-from-zero rule demands 1. -/
theorem c4_half_counterexample :
    safeInt (JVal.num (1 / 2)) = some 0 ∧ nearestAwayFromZero (1 / 2) = 1 ∧
    safeInt (JVal.num (1 / 2)) ≠ some (nearestAwayFromZero (1 / 2)) := by
  have h1 : safeInt (JVal.num (1 / 2)) = some 0 := by with_unfolding_all decide
  have h2 : nearestAwayFromZero (1 / 2) = 1 := by
    unfold nearestAwayFromZero
    rw [if_pos (by norm_num), show (1 : ℚ) / 2 + 1 / 2 = 1 from by norm_num]
    exact Int.floor_one
  refine ⟨h1, h2, ?_⟩
  rw [h1, h2]
  decide

/-- C4 (amended): on numeric input, `_safe_int` returns the nearest integer
with ties (exact halves) resolved to the even neighbor — CPython `round` is
banker's rounding, not away-from-zero; non-tie inputs still round to the
unique nearest integer, e.g. 71.6 → 72. -/
theorem c4_rounds_half_to_even (q : ℚ) :
    safeInt (JVal.num q) = some (pyRound q) ∧
    |q - (pyRound q : ℚ)| ≤ 1 / 2 ∧
    (∀ z : ℤ, |q - (pyRound q : ℚ)| ≤ |q - (z : ℚ)|) ∧
    (|q - (pyRound q : ℚ)| = 1 / 2 → pyRound q % 2 = 0) ∧
    safeInt (JVal.num (716 / 10)) = some 72 := by
  obtain ⟨hle, heven, hnear⟩ := pyRound_props q
  exact ⟨safeInt_num q, hle, hnear, fun hhalf => Int.even_iff.mp (heven hhalf),
    by with_unfolding_all decide⟩

/-- C5: every document `build_json` returns has the fixed top-level shape, its
`current` record and every `hourly` and `daily` record being objects whose
numeric fields are numbers or explicit nulls — never strings, never propagated
exceptions. -/
theorem c5_numeric_or_null (raw : JVal) (p : String) (la lo : ℚ) (tz now : String)
    (doc : JVal) (h : buildJson raw p la lo tz now = .ok doc) :
    ∃ (cur : JVal) (hr dr : JArr),
      doc = JVal.obj (.cons "meta" (.obj (metaObj p la lo tz now))
        (.cons "current" cur (.cons "hourly" (.arr hr) (.cons "daily" (.arr dr) .nil)))) ∧
      CurrentShape cur ∧
      (∀ j row, hr.get? j = some row → HourlyShape row) ∧
      (∀ j row, dr.get? j = some row → DailyShape row) := by
  obtain ⟨cur, hr, dr, hc, hhh, hdd, hdoc⟩ := buildJson_ok_shape raw p la lo tz now doc h
  exact ⟨cur, hr, dr, hdoc, buildCurrent_shape raw cur hc,
    buildHourly_shape raw hr hhh, buildDaily_shape raw dr hdd⟩

/-- Witness for C5 at the empty raw response. -/
theorem c5_numeric_or_null_witness :
    ∃ (cur : JVal) (hr dr : JArr),
      docEmpty = JVal.obj (.cons "meta" (.obj (metaObj "p" 0 0 "tz" "now"))
        (.cons "current" cur (.cons "hourly" (.arr hr) (.cons "daily" (.arr dr) .nil)))) ∧
      CurrentShape cur ∧
      (∀ j row, hr.get? j = some row → HourlyShape row) ∧
      (∀ j row, dr.get? j = some row → DailyShape row) :=
  c5_numeric_or_null (JVal.obj JObj.nil) "p" 0 0 "tz" "now" docEmpty rfl

/-- C6 (counterexample): `build_json` is not a pure function of the raw
response and the static metadata alone: it also reads the wall clock for
`meta.generated_utc`, so two calls with identical arguments but different
clock readings return different documents. -/
theorem c6_clock_counterexample :
    (buildJson (JVal.obj JObj.nil) "" 0 0 "" "a").toOption ≠
      (buildJson (JVal.obj JObj.nil) "" 0 0 "" "b").toOption := by
  with_unfolding_all decide

/-- C6 (amended): apart from the `generated_utc` timestamp read from the wall
clock, `build_json` is a pure function of the raw response and the static
metadata: stripping that one entry, two calls with the same arguments agree
whatever the clock read on each. -/
theorem c6_pure_modulo_timestamp (raw : JVal) (p : String) (la lo : ℚ) (tz t1 t2 : String) :
    (buildJson raw p la lo tz t1).map stripGenerated =
      (buildJson raw p la lo tz t2).map stripGenerated :=
  buildJson_clock raw p la lo tz t1 t2

/-- C7: serializing any document `build_json` produces (with decimal
coordinates and a decimal-valued raw response, as parsed JSON always is) and
parsing it back reproduces the document exactly: the writer is lossless. -/
theorem c7_roundtrip (raw : JVal) (p : String) (la lo : ℚ) (tz now : String) (doc : JVal)
    (hraw : DecV raw) (hla : IsDecQ la) (hlo : IsDecQ lo)
    (h : buildJson raw p la lo tz now = .ok doc) :
    parseJson (printJson doc) = some doc :=
  parseJson_printJson doc (DecV_buildJson raw p la lo tz now doc hraw hla hlo h)

/-- Witness for C7 at the empty raw response and the script's static
configuration. -/
theorem c7_roundtrip_witness : parseJson (printJson docMain) = some docMain :=
  c7_roundtrip (JVal.obj JObj.nil) PLACE_NAME LAT LON TIMEZONE
    "2026-01-01T00:00:00+00:00" docMain (by simp [DecV, DecO])
    ⟨336289, 4, by norm_num [LAT]⟩ ⟨-917909, 4, by norm_num [LON]⟩ rfl

/-- C8: `main` exits 0 and writes the serialized document only when fetch,
normalize and write all succeed; any raised exception is caught once, printed
as `ERROR: <message>` on the diagnostic stream with exit code 1; on a fetch or
normalize failure no output file is written. -/
theorem c8_main_outcomes (now : String) :
    (∀ raw out, buildJson raw PLACE_NAME LAT LON TIMEZONE now = .ok out →
      mainRun (.ok raw) now (.ok ()) =
        ⟨0, ["Wrote " ++ OUTFILE], [], some (printJson out)⟩) ∧
    (∀ e writeRes, mainRun (.error e) now writeRes = ⟨1, [], ["ERROR: " ++ e], none⟩) ∧
    (∀ raw e writeRes, buildJson raw PLACE_NAME LAT LON TIMEZONE now = .error e →
      mainRun (.ok raw) now writeRes = ⟨1, [], ["ERROR: " ++ e], none⟩) ∧
    (∀ raw out we, buildJson raw PLACE_NAME LAT LON TIMEZONE now = .ok out →
      mainRun (.ok raw) now (.error we) = ⟨1, [], ["ERROR: " ++ we], none⟩) := by
  refine ⟨?_, ?_, ?_, ?_⟩
  · intro raw out hb
    simp [mainRun, hb]
  · intro e writeRes
    rfl
  · intro raw e writeRes hb
    simp [mainRun, hb]
  · intro raw out we hb
    simp [mainRun, hb]

/-- C9: a raw response in which any one of the `current`, `hourly` or `daily`
keys is absent, or mapped to null or another falsy value, does not make that
section fail, whatever the other sections hold: a missing/falsy `current`
yields the all-null current record, a missing/falsy `hourly` or `daily` yields
an empty list for that section, and the section results assemble into the
output document whenever the remaining sections also succeed. -/
theorem c9_missing_sections (r : JObj) (p : String) (la lo : ℚ) (tz now : String) :
    ((r.lookup? "current" = none ∨
        ∃ v, r.lookup? "current" = some v ∧ truthy v = false) →
      buildCurrent (JVal.obj r) = .ok (JVal.obj nullCurrentRecord)) ∧
    ((r.lookup? "hourly" = none ∨
        ∃ v, r.lookup? "hourly" = some v ∧ truthy v = false) →
      buildHourly (JVal.obj r) = .ok .nil) ∧
    ((r.lookup? "daily" = none ∨
        ∃ v, r.lookup? "daily" = some v ∧ truthy v = false) →
      buildDaily (JVal.obj r) = .ok .nil) ∧
    (∀ (cur : JVal) (hrows drows : JArr), buildCurrent (JVal.obj r) = .ok cur →
      buildHourly (JVal.obj r) = .ok hrows → buildDaily (JVal.obj r) = .ok drows →
      buildJson (JVal.obj r) p la lo tz now = .ok (JVal.obj
        (.cons "meta" (.obj (metaObj p la lo tz now))
          (.cons "current" cur
            (.cons "hourly" (.arr hrows)
              (.cons "daily" (.arr drows) .nil)))))) :=
  ⟨fun hcur => buildCurrent_missing r hcur,
   fun hhh => buildHourly_missing r hhh,
   fun hdd => buildDaily_missing r hdd,
   fun cur hrows drows hc hh hd =>
     buildJson_parts (JVal.obj r) p la lo tz now cur hrows drows hc hh hd⟩

/-- Witness for C9 at a mixed raw response: `current` present and truthy,
`hourly` mapped to null, `daily` absent. -/
theorem c9_missing_sections_witness :
    buildHourly (JVal.obj (JObj.cons "current"
        (JVal.obj (JObj.cons "temperature_2m" (JVal.num 5) JObj.nil))
        (JObj.cons "hourly" JVal.null JObj.nil))) = .ok .nil ∧
    buildDaily (JVal.obj (JObj.cons "current"
        (JVal.obj (JObj.cons "temperature_2m" (JVal.num 5) JObj.nil))
        (JObj.cons "hourly" JVal.null JObj.nil))) = .ok .nil :=
  ⟨(c9_missing_sections (JObj.cons "current"
        (JVal.obj (JObj.cons "temperature_2m" (JVal.num 5) JObj.nil))
        (JObj.cons "hourly" JVal.null JObj.nil))
      "p" 0 0 "tz" "now").2.1 (Or.inr ⟨JVal.null, rfl, rfl⟩),
   (c9_missing_sections (JObj.cons "current"
        (JVal.obj (JObj.cons "temperature_2m" (JVal.num 5) JObj.nil))
        (JObj.cons "hourly" JVal.null JObj.nil))
      "p" 0 0 "tz" "now").2.2.1 (Or.inl rfl)⟩

/-- C10: a string that parses as a float is coerced to its numeric value by
`_safe_float`, and by `_safe_int` after rounding — not to null — so numeric
strings in raw fields appear as numbers in the output; only strings that fail
float conversion become null. -/
theorem c10_string_coercion (s : String) (q : ℚ) (h : parseFloatChars s.data = some q) :
    safeFloat (JVal.str s) = some q ∧
    safeInt (JVal.str s) = some (pyRound q) ∧
    jOfFloat (safeFloat (JVal.str s)) = JVal.num q ∧
    (∀ c : JObj, c.lookup? "temperature_2m" = some (JVal.str s) →
      (currentRecord c).lookup? "temperature_c" = some (JVal.num q)) ∧
    (∀ t : String, parseFloatChars t.data = none →
      safeFloat (JVal.str t) = none ∧ safeInt (JVal.str t) = none ∧
      jOfFloat (safeFloat (JVal.str t)) = JVal.null) := by
  have hsf : safeFloat (JVal.str s) = some q := by
    simp [safeFloat, pyFloat?, h]
  have hsi : safeInt (JVal.str s) = some (pyRound q) := by
    simp [safeInt, pyFloat?, h]
  refine ⟨hsf, hsi, by rw [hsf]; rfl, ?_, ?_⟩
  · intro c hc
    simp [currentRecord, JObj.lookup?, hc, hsf, jOfFloat]
  · intro t ht
    have hn : safeFloat (JVal.str t) = none := by simp [safeFloat, pyFloat?, ht]
    exact ⟨hn, by simp [safeInt, pyFloat?, ht], by rw [hn]; rfl⟩

/-- Witness for C10 at the spec's example strings. -/
theorem c10_string_coercion_witness :
    safeFloat (JVal.str "21.3") = some (213 / 10) ∧
    safeInt (JVal.str "58") = some (pyRound 58) := by
  refine ⟨(c10_string_coercion "21.3" (213 / 10) (by with_unfolding_all decide)).1, ?_⟩
  exact (c10_string_coercion "58" 58 (by with_unfolding_all decide)).2.1

end FetchWeather
